import Mathlib

/-! GpgFrontend: multi-channel gpgconf dispatch and the key-edit automaton tables.

A shallow embedding of

* `src/core/function/gpg/GpgAdvancedOperator.cpp`: the six gpgconf operations,
  their per-channel completion lambdas and the "last one out" aggregation;
* `src/core/function/gpg/GpgKeyManager.cpp`: the next-state and action tables of
  `SetOwnerTrustLevel`, `DeleteSubkey` and `RevokeSubkey`;
* `src/core/thread/TaskImpl.hpp`: `Task::Impl`, its runnable package and its
  completion handler, as the events they produce in order; `QMetaObject::invokeMethod`
  follows the connection types of the Qt documentation;
* `src/core/utils/CommonUtils.cpp`: `BeautifyFingerprint` and
  `GFCompareSoftwareVersion`;
* `src/ui/widgets/HelpPage.cpp`: `localized_help`, with `QUrl::toLocalFile` and the
  existence of a file as parameters.

`GpgCommandExecutor::ExecuteSync`, `GetGpgKeyDatabaseInfos` and
`GpgAutomatonHandler` are not among the sources.  The first two are the environment
of the operations: the list of key databases and the exit codes and order of the
completions are parameters.  The loop of `GpgAutomatonHandler::DoInteract` is
modelled from the specification.

Conventions of the embedding.

* A `QString` is a `String`, a `QStringList` a `List String`, a C++ `int` an `Int`
  (the only arithmetic on an `int` is the increment of `completed_tasks`, which is
  bounded by the number of key databases).
* An operation of `GpgAdvancedOperator` is embedded in two phases.  *Issuing* is
  what the body of the operation does before it returns: the fail-fast test, the
  enumeration, and one `ExecuteSync` call per key database, each carrying its
  completion lambda.  *Completion* is the run of those lambdas, each with the
  exit code of its process, in some order; the lambdas act on the locals
  `completed_tasks` and `results` they capture by reference.
-/

namespace GpgFrontend

/-! ## GpgAdvancedOperator -/

/-- Modelled from the spec: the descriptor of one key database handed out by the
channel enumeration `GetGpgKeyDatabaseInfos` (its declaration is not among the
sources): a numeric channel identifier, a display name and the path of the home
directory. -/
structure KeyDatabaseInfo where
  channel : Int
  name : String
  path : String
deriving DecidableEq, Repr

/-- The program and the argument list handed to `GpgCommandExecutor::ExecuteSync`. -/
structure ExecuteContext where
  cmd : String
  arguments : List String
deriving DecidableEq, Repr

/-- The state the completion lambdas of one dispatch loop share: the locals
`completed_tasks` and `results` (captured by reference), and the record of the
invocations `cb(final_result, TransferParams())` made so far (oldest first). -/
structure LoopState where
  completed_tasks : Int
  results : List Int
  cb_calls : List Int
deriving DecidableEq, Repr

/-- The completion lambda `[=, &completed_tasks, &results](int exit_code, ...)`,
which is the same text in the five dispatch loops.  `total_tasks`, `cb` and
`current_index` are the values captured by copy; `cb` is `true` for a non-null
`OperationCallback`. -/
def on_exit (total_tasks : Int) (cb : Bool) (current_index : Nat) (exit_code : Int)
    (s : LoopState) : LoopState :=
  -- results[current_index] = exit_code;
  let results := s.results.set current_index exit_code
  -- if (++completed_tasks == total_tasks && cb)
  let completed_tasks := s.completed_tasks + 1
  if completed_tasks == total_tasks && cb then
    let final_result : Int :=
      if results.all (fun result => decide (result ≥ 0)) then 0 else -1
    { completed_tasks := completed_tasks, results := results,
      cb_calls := s.cb_calls ++ [final_result] }
  else
    { completed_tasks := completed_tasks, results := results, cb_calls := s.cb_calls }

/-- One `ExecuteSync` call: its context and its completion lambda. -/
structure Execution where
  ctx : ExecuteContext
  exit_func : Int → LoopState → LoopState

/-- The loop `for (const auto &key_db : key_dbs) { const int current_index = task_index++; ... }`:
the iteration for the key database at position `i` runs with `current_index = i`. -/
def for_key_dbs (body : Nat → KeyDatabaseInfo → Execution) :
    Nat → List KeyDatabaseInfo → List Execution
  | _, [] => []
  | task_index, key_db :: rest =>
    body task_index key_db :: for_key_dbs body (task_index + 1) rest

/-- One dispatch loop as it stands when the operation returns: the locals and
the `ExecuteSync` calls it made, in order. -/
structure DispatchLoop where
  total_tasks : Int
  cb : Bool
  init : LoopState
  executions : List Execution

/-- What an operation has done when it returns: the callback invocations it made
itself, the number of calls of `GetGpgKeyDatabaseInfos`, and its dispatch loops. -/
structure Outcome where
  cb_calls : List Int
  enumerations : Nat
  loops : List DispatchLoop

/-- The fail-fast branch `if (cb) cb(-1, TransferParams()); return;`. -/
def abort (cb : Bool) : Outcome :=
  { cb_calls := if cb then [-1] else [], enumerations := 0, loops := [] }

/-- Sequential composition of two operations. -/
def Outcome.andThen (a b : Outcome) : Outcome :=
  { cb_calls := a.cb_calls ++ b.cb_calls,
    enumerations := a.enumerations + b.enumerations,
    loops := a.loops ++ b.loops }

/-- The commands an operation issued, in order of issue. -/
def Outcome.issued (o : Outcome) : List ExecuteContext :=
  (o.loops.map (fun l => l.executions.map (fun e => e.ctx))).flatten

section Operations

-- `home key_db.path` stands for
-- `QDir::toNativeSeparators(QFileInfo(key_db.path).canonicalFilePath())`, a function
-- of the file system.
variable (home : String → String)

/-- `GpgAdvancedOperator::ClearGpgPasswordCache`; `gpgconf_path` is the runtime
value `gpgme.ctx.gpgconf_path`, `key_dbs` the result of `GetGpgKeyDatabaseInfos()`. -/
def ClearGpgPasswordCache (gpgconf_path : String) (key_dbs : List KeyDatabaseInfo)
    (cb : Bool) : Outcome :=
  if gpgconf_path.isEmpty then abort cb
  else
    let total_tasks : Int := key_dbs.length
    { cb_calls := [], enumerations := 1,
      loops := [{
        total_tasks := total_tasks, cb := cb,
        init := { completed_tasks := 0, results := List.replicate key_dbs.length 0,
                  cb_calls := [] },
        executions := for_key_dbs (fun current_index key_db =>
          { ctx := { cmd := gpgconf_path,
                     arguments := ["--homedir", home key_db.path, "--reload", "gpg-agent"] },
            exit_func := on_exit total_tasks cb current_index }) 0 key_dbs }] }

/-- `GpgAdvancedOperator::ReloadGpgComponents`. -/
def ReloadGpgComponents (gpgconf_path : String) (key_dbs : List KeyDatabaseInfo)
    (cb : Bool) : Outcome :=
  if gpgconf_path.isEmpty then abort cb
  else
    let total_tasks : Int := key_dbs.length
    { cb_calls := [], enumerations := 1,
      loops := [{
        total_tasks := total_tasks, cb := cb,
        init := { completed_tasks := 0, results := List.replicate key_dbs.length 0,
                  cb_calls := [] },
        executions := for_key_dbs (fun current_index key_db =>
          { ctx := { cmd := gpgconf_path,
                     arguments := ["--homedir", home key_db.path, "--reload", "all"] },
            exit_func := on_exit total_tasks cb current_index }) 0 key_dbs }] }

/-- `GpgAdvancedOperator::KillAllGpgComponents`. -/
def KillAllGpgComponents (gpgconf_path : String) (key_dbs : List KeyDatabaseInfo)
    (cb : Bool) : Outcome :=
  if gpgconf_path.isEmpty then abort cb
  else
    let total_tasks : Int := key_dbs.length
    { cb_calls := [], enumerations := 1,
      loops := [{
        total_tasks := total_tasks, cb := cb,
        init := { completed_tasks := 0, results := List.replicate key_dbs.length 0,
                  cb_calls := [] },
        executions := for_key_dbs (fun current_index key_db =>
          { ctx := { cmd := gpgconf_path,
                     arguments := ["--homedir", home key_db.path, "--kill", "all"] },
            exit_func := on_exit total_tasks cb current_index }) 0 key_dbs }] }

/-- `GpgAdvancedOperator::ResetConfigures`. -/
def ResetConfigures (gpgconf_path : String) (key_dbs : List KeyDatabaseInfo)
    (cb : Bool) : Outcome :=
  if gpgconf_path.isEmpty then abort cb
  else
    let total_tasks : Int := key_dbs.length
    { cb_calls := [], enumerations := 1,
      loops := [{
        total_tasks := total_tasks, cb := cb,
        init := { completed_tasks := 0, results := List.replicate key_dbs.length 0,
                  cb_calls := [] },
        executions := for_key_dbs (fun current_index key_db =>
          { ctx := { cmd := gpgconf_path,
                     arguments := ["--homedir", home key_db.path, "--apply-defaults"] },
            exit_func := on_exit total_tasks cb current_index }) 0 key_dbs }] }

/-- `GpgAdvancedOperator::LaunchGpgComponents`. -/
def LaunchGpgComponents (gpgconf_path : String) (key_dbs : List KeyDatabaseInfo)
    (cb : Bool) : Outcome :=
  if gpgconf_path.isEmpty then abort cb
  else
    let total_tasks : Int := key_dbs.length
    { cb_calls := [], enumerations := 1,
      loops := [{
        total_tasks := total_tasks, cb := cb,
        init := { completed_tasks := 0, results := List.replicate key_dbs.length 0,
                  cb_calls := [] },
        executions := for_key_dbs (fun current_index key_db =>
          { ctx := { cmd := gpgconf_path,
                     arguments := ["--homedir", home key_db.path, "--launch", "all"] },
            exit_func := on_exit total_tasks cb current_index }) 0 key_dbs }] }

/-- `GpgAdvancedOperator::RestartGpgComponents`: `KillAllGpgComponents(nullptr)`
followed by `LaunchGpgComponents(cb)`.  Each of the two calls enumerates the key
databases afresh: `kill_dbs` and `launch_dbs` are the two results. -/
def RestartGpgComponents (gpgconf_path : String) (kill_dbs launch_dbs : List KeyDatabaseInfo)
    (cb : Bool) : Outcome :=
  if gpgconf_path.isEmpty then abort cb
  else
    (KillAllGpgComponents home gpgconf_path kill_dbs false).andThen
      (LaunchGpgComponents home gpgconf_path launch_dbs cb)

end Operations

/-- The completion phase of a dispatch loop: the lambdas run one after another,
`schedule` listing, in order of completion, the position of the channel whose
process ended and its exit code. -/
def complete (executions : List Execution) (schedule : List (Nat × Int))
    (s : LoopState) : LoopState :=
  schedule.foldl (fun st ev =>
    match executions.get? ev.1 with
    | some e => e.exit_func ev.2 st
    | none => st) s

/-- The schedule in which the channels complete in the order `order`, the channel
at position `i` with exit code `codes[i]`. -/
def schedule_of (codes : List Int) (order : List Nat) : List (Nat × Int) :=
  order.map (fun i => (i, codes.getD i 0))

/-- The state of a loop after the completions of `schedule`. -/
def DispatchLoop.after (l : DispatchLoop) (schedule : List (Nat × Int)) : LoopState :=
  complete l.executions schedule l.init

/-- The aggregate code: `0` when every exit code is `>= 0`, else `-1`. -/
def aggregate (codes : List Int) : Int :=
  if codes.all (fun result => decide (result ≥ 0)) then 0 else -1

/-- The invocations of the callback, oldest first, once the processes of the
schedules have ended: those the operation made itself, then those made by the
completion lambdas; `schedules` gives the schedule of each loop, in order. -/
def Outcome.callbacks (o : Outcome) (schedules : List (List (Nat × Int))) : List Int :=
  o.cb_calls ++ (List.zipWith (fun l sch => (l.after sch).cb_calls) o.loops schedules).flatten

/-- The vector `results` of each loop after the completions of its schedule. -/
def Outcome.final_results (o : Outcome) (schedules : List (List (Nat × Int))) :
    List (List Int) :=
  List.zipWith (fun l sch => (l.after sch).results) o.loops schedules

/-- An outcome is a fail-fast: no enumeration, no dispatch loop and no command;
the callback, when non-null, is invoked once with `-1` by the operation itself, and
whatever completions are reported afterwards add nothing. -/
def fails_fast (cb : Bool) (o : Outcome) (schedules : List (List (Nat × Int))) : Prop :=
  o.enumerations = 0 ∧ o.loops.length = 0 ∧ o.issued = [] ∧
  o.cb_calls = (if cb then [-1] else []) ∧
  o.callbacks schedules = (if cb then [-1] else [])

/-- The five operations that dispatch one command per key database. -/
def dispatch_operations (home : String → String) :
    List (String → List KeyDatabaseInfo → Bool → Outcome) :=
  [ClearGpgPasswordCache home, ReloadGpgComponents home, KillAllGpgComponents home,
   ResetConfigures home, LaunchGpgComponents home]

/-! ## GpgKeyManager: the key-edit automaton tables -/

/-- Modelled from the spec: the enumeration `AutomatonState` of
`GpgAutomatonHandler.h`, which is not among the sources.  The tags are the ones the
three operations of `GpgKeyManager.cpp` name. -/
inductive AutomatonState
  | AS_START
  | AS_SELECT
  | AS_COMMAND
  | AS_VALUE
  | AS_REASON_CODE
  | AS_REASON_TEXT
  | AS_REALLY_ULTIMATE
  | AS_SAVE
  | AS_ERROR
  | AS_QUIT
deriving DecidableEq, Repr

open AutomatonState

/-- Modelled from the spec: the part of `AutomatonHandelStruct` (declared in
`GpgAutomatonHandler.h`, not among the sources) the action tables touch: the
success flag written by `SetSuccess`. -/
structure AutomatonHandelStruct where
  success : Bool
deriving DecidableEq, Repr

/-- `handler.SetSuccess(true)`. -/
def AutomatonHandelStruct.SetSuccess (_handler : AutomatonHandelStruct) (value : Bool) :
    AutomatonHandelStruct :=
  { success := value }

/-- `QString::number(n)` for an `int`: the decimal rendering. -/
def QString_number (n : Int) : String := toString n

/-- `next_state_handler` of `GpgKeyManager::SetOwnerTrustLevel`. -/
def SetOwnerTrustLevel.next_state_handler (state : AutomatonState) (status args : String) :
    AutomatonState :=
  let _tokens := args.splitOn " "
  match state with
  | AS_START =>
    if status == "GET_LINE" && args == "keyedit.prompt" then AS_COMMAND
    else AS_ERROR
  | AS_COMMAND =>
    if status == "GET_LINE" && args == "edit_ownertrust.value" then AS_VALUE
    else AS_ERROR
  | AS_VALUE =>
    if status == "GET_LINE" && args == "keyedit.prompt" then AS_QUIT
    else if status == "GET_BOOL" && args == "edit_ownertrust.set_ultimate.okay" then
      AS_REALLY_ULTIMATE
    else AS_ERROR
  | AS_REALLY_ULTIMATE =>
    if status == "GET_LINE" && args == "keyedit.prompt" then AS_QUIT
    else AS_ERROR
  | AS_QUIT =>
    if status == "GET_BOOL" && args == "keyedit.save.okay" then AS_SAVE
    else AS_ERROR
  | AS_ERROR =>
    if status == "GET_LINE" && args == "keyedit.prompt" then AS_QUIT
    else AS_ERROR
  | _ => AS_ERROR

/-- `action_handler` of `GpgKeyManager::SetOwnerTrustLevel`, capturing `trust_level`:
the text to send and the handler struct after the action. -/
def SetOwnerTrustLevel.action_handler (trust_level : Int) (handler : AutomatonHandelStruct)
    (state : AutomatonState) : String × AutomatonHandelStruct :=
  match state with
  | AS_COMMAND => ("trust", handler)
  | AS_VALUE => (QString_number trust_level, handler.SetSuccess true)
  | AS_REALLY_ULTIMATE => ("Y", handler.SetSuccess true)
  | AS_QUIT => ("quit", handler)
  | AS_SAVE => ("Y", handler.SetSuccess true)
  | AS_START => ("", handler)
  | AS_ERROR => ("", handler)
  | _ => ("", handler)

/-- `next_state_handler` of `GpgKeyManager::DeleteSubkey`. -/
def DeleteSubkey.next_state_handler (state : AutomatonState) (status args : String) :
    AutomatonState :=
  let _tokens := args.splitOn " "
  match state with
  | AS_START =>
    if status == "GET_LINE" && args == "keyedit.prompt" then AS_SELECT
    else AS_ERROR
  | AS_SELECT =>
    if status == "GET_LINE" && args == "keyedit.prompt" then AS_COMMAND
    else AS_ERROR
  | AS_COMMAND =>
    if status == "GET_LINE" && args == "keyedit.prompt" then AS_QUIT
    else if status == "GET_BOOL" && args == "keyedit.remove.subkey.okay" then
      AS_REALLY_ULTIMATE
    else AS_ERROR
  | AS_REALLY_ULTIMATE =>
    if status == "GET_LINE" && args == "keyedit.prompt" then AS_QUIT
    else AS_ERROR
  | AS_QUIT =>
    if status == "GET_BOOL" && args == "keyedit.save.okay" then AS_SAVE
    else AS_ERROR
  | AS_ERROR =>
    if status == "GET_LINE" && args == "keyedit.prompt" then AS_QUIT
    else AS_ERROR
  | _ => AS_ERROR

/-- `action_handler` of `GpgKeyManager::DeleteSubkey`, capturing `subkey_index`. -/
def DeleteSubkey.action_handler (subkey_index : Int) (handler : AutomatonHandelStruct)
    (state : AutomatonState) : String × AutomatonHandelStruct :=
  match state with
  | AS_SELECT => ("key " ++ QString_number subkey_index, handler)
  | AS_COMMAND => ("delkey", handler)
  | AS_REALLY_ULTIMATE => ("Y", handler.SetSuccess true)
  | AS_QUIT => ("quit", handler)
  | AS_SAVE => ("Y", handler.SetSuccess true)
  | AS_START => ("", handler)
  | AS_ERROR => ("", handler)
  | _ => ("", handler)

/-- `next_state_handler` of `GpgKeyManager::RevokeSubkey`. -/
def RevokeSubkey.next_state_handler (state : AutomatonState) (status args : String) :
    AutomatonState :=
  let _tokens := args.splitOn " "
  match state with
  | AS_START =>
    if status == "GET_LINE" && args == "keyedit.prompt" then AS_SELECT
    else AS_ERROR
  | AS_SELECT =>
    if status == "GET_LINE" && args == "keyedit.prompt" then AS_COMMAND
    else AS_ERROR
  | AS_COMMAND =>
    if status == "GET_LINE" && args == "keyedit.prompt" then AS_QUIT
    else if status == "GET_BOOL" && args == "keyedit.revoke.subkey.okay" then
      AS_REALLY_ULTIMATE
    else AS_ERROR
  | AS_REASON_CODE =>
    if status == "GET_LINE" && args == "keyedit.prompt" then AS_QUIT
    else if status == "GET_LINE" && args == "ask_revocation_reason.text" then
      AS_REASON_TEXT
    else AS_ERROR
  | AS_REASON_TEXT =>
    if status == "GET_LINE" && args == "keyedit.prompt" then AS_QUIT
    else if status == "GET_LINE" && args == "ask_revocation_reason.text" then
      AS_REASON_TEXT
    else if status == "GET_BOOL" && args == "ask_revocation_reason.okay" then
      AS_REALLY_ULTIMATE
    else AS_ERROR
  | AS_REALLY_ULTIMATE =>
    if status == "GET_LINE" && args == "keyedit.prompt" then AS_QUIT
    else if status == "GET_LINE" && args == "ask_revocation_reason.code" then
      AS_REASON_CODE
    else AS_ERROR
  | AS_QUIT =>
    if status == "GET_BOOL" && args == "keyedit.save.okay" then AS_SAVE
    else AS_ERROR
  | AS_ERROR =>
    if status == "GET_LINE" && args == "keyedit.prompt" then AS_QUIT
    else AS_ERROR
  | _ => AS_ERROR

/-- `action_handler` of `GpgKeyManager::RevokeSubkey`, capturing `subkey_index`,
`reason_code` and the shared list `reason_text_lines`, which `takeFirst` mutates:
the text to send, the handler struct and the list after the action.
`QString(line.toUtf8())` re-decodes the UTF-8 encoding of `line`; it is taken to be
`line`. -/
def RevokeSubkey.action_handler (subkey_index reason_code : Int)
    (reason_text_lines : List String) (handler : AutomatonHandelStruct)
    (state : AutomatonState) : String × AutomatonHandelStruct × List String :=
  match state with
  | AS_SELECT => ("key " ++ QString_number subkey_index, handler, reason_text_lines)
  | AS_COMMAND => ("revkey", handler, reason_text_lines)
  | AS_REASON_CODE => (QString_number reason_code, handler, reason_text_lines)
  | AS_REASON_TEXT =>
    match reason_text_lines with
    | [] => ("", handler, [])
    | first :: rest => (first, handler, rest)
  | AS_REALLY_ULTIMATE => ("Y", handler, reason_text_lines)
  | AS_QUIT => ("quit", handler, reason_text_lines)
  | AS_SAVE => ("Y", handler.SetSuccess true, reason_text_lines)
  | AS_START => ("", handler, reason_text_lines)
  | AS_ERROR => ("", handler, reason_text_lines)
  | _ => ("", handler, reason_text_lines)

/-! ### The interaction loop -/

/-- One turn of an interactive session: the state entered, the text sent back and
the success flag after the action. -/
structure Turn where
  state : AutomatonState
  text : String
  success : Bool
deriving DecidableEq, Repr

/-- A running session: the current state, the handler struct, the mutable values
the action closure holds (`cap`), and the turns so far, oldest first. -/
structure Session (κ : Type) where
  state : AutomatonState
  handler : AutomatonHandelStruct
  cap : κ
  turns : List Turn

/-- Modelled from the spec: one iteration of the loop of
`GpgAutomatonHandler::DoInteract` (not among the sources).  The engine emits a
status event `(keyword, args)`; the transition table computes the next state from
the current state and the event; the action table computes the text to send back
given the new state; that text is written to the engine. -/
def interact_step {κ : Type} (next : AutomatonState → String → String → AutomatonState)
    (action : κ → AutomatonHandelStruct → AutomatonState → String × AutomatonHandelStruct × κ)
    (s : Session κ) (event : String × String) : Session κ :=
  let next_state := next s.state event.1 event.2
  let r := action s.cap s.handler next_state
  { state := next_state, handler := r.2.1, cap := r.2.2,
    turns := s.turns ++ [{ state := next_state, text := r.1, success := r.2.1.success }] }

/-- Modelled from the spec: the loop of `DoInteract` from the session `s`, for the
status events the engine emits until its process exits.  The loop ends when the
process has exited (no event is left) or when `AS_ERROR` has been reached: in the
three tables `AS_ERROR` has no transition out of it other than the forced quit, and
the events that follow are not taken. -/
def interact_from {κ : Type} (next : AutomatonState → String → String → AutomatonState)
    (action : κ → AutomatonHandelStruct → AutomatonState → String × AutomatonHandelStruct × κ) :
    Session κ → List (String × String) → Session κ
  | s, [] => s
  | s, event :: rest =>
    if s.state = AS_ERROR then s
    else interact_from next action (interact_step next action s event) rest

/-- Modelled from the spec: the run of `DoInteract`, started in `AS_START` with the
success flag clear, on the status events `events`. -/
def interact {κ : Type} (next : AutomatonState → String → String → AutomatonState)
    (action : κ → AutomatonHandelStruct → AutomatonState → String × AutomatonHandelStruct × κ)
    (cap : κ) (events : List (String × String)) : Session κ :=
  interact_from next action
    { state := AS_START, handler := { success := false }, cap := cap, turns := [] } events

/-- Modelled from the spec: the result of `DoInteract`: true iff at least one
action invocation of the run flagged success and the process exited without error
(`process_ok`); false when the run landed in `AS_ERROR`, where it ends. -/
def DoInteract {κ : Type} (next : AutomatonState → String → String → AutomatonState)
    (action : κ → AutomatonHandelStruct → AutomatonState → String × AutomatonHandelStruct × κ)
    (cap : κ) (events : List (String × String)) (process_ok : Bool) : Bool :=
  let s := interact next action cap events
  s.turns.any (fun t => t.success) && process_ok && !(s.state == AS_ERROR)

/-- An action table that holds no mutable value, as an action of the loop. -/
def stateless (action : AutomatonHandelStruct → AutomatonState → String × AutomatonHandelStruct)
    (_cap : Unit) (handler : AutomatonHandelStruct) (state : AutomatonState) :
    String × AutomatonHandelStruct × Unit :=
  ((action handler state).1, (action handler state).2, ())

/-- The status events each state of `SetOwnerTrustLevel` handles explicitly, with
the successor state. -/
def SetOwnerTrustLevel.transitions : List ((AutomatonState × String × String) × AutomatonState) :=
  [((AS_START, "GET_LINE", "keyedit.prompt"), AS_COMMAND),
   ((AS_COMMAND, "GET_LINE", "edit_ownertrust.value"), AS_VALUE),
   ((AS_VALUE, "GET_LINE", "keyedit.prompt"), AS_QUIT),
   ((AS_VALUE, "GET_BOOL", "edit_ownertrust.set_ultimate.okay"), AS_REALLY_ULTIMATE),
   ((AS_REALLY_ULTIMATE, "GET_LINE", "keyedit.prompt"), AS_QUIT),
   ((AS_QUIT, "GET_BOOL", "keyedit.save.okay"), AS_SAVE),
   ((AS_ERROR, "GET_LINE", "keyedit.prompt"), AS_QUIT)]

/-- The status events each state of `DeleteSubkey` handles explicitly. -/
def DeleteSubkey.transitions : List ((AutomatonState × String × String) × AutomatonState) :=
  [((AS_START, "GET_LINE", "keyedit.prompt"), AS_SELECT),
   ((AS_SELECT, "GET_LINE", "keyedit.prompt"), AS_COMMAND),
   ((AS_COMMAND, "GET_LINE", "keyedit.prompt"), AS_QUIT),
   ((AS_COMMAND, "GET_BOOL", "keyedit.remove.subkey.okay"), AS_REALLY_ULTIMATE),
   ((AS_REALLY_ULTIMATE, "GET_LINE", "keyedit.prompt"), AS_QUIT),
   ((AS_QUIT, "GET_BOOL", "keyedit.save.okay"), AS_SAVE),
   ((AS_ERROR, "GET_LINE", "keyedit.prompt"), AS_QUIT)]

/-- The status events each state of `RevokeSubkey` handles explicitly. -/
def RevokeSubkey.transitions : List ((AutomatonState × String × String) × AutomatonState) :=
  [((AS_START, "GET_LINE", "keyedit.prompt"), AS_SELECT),
   ((AS_SELECT, "GET_LINE", "keyedit.prompt"), AS_COMMAND),
   ((AS_COMMAND, "GET_LINE", "keyedit.prompt"), AS_QUIT),
   ((AS_COMMAND, "GET_BOOL", "keyedit.revoke.subkey.okay"), AS_REALLY_ULTIMATE),
   ((AS_REASON_CODE, "GET_LINE", "keyedit.prompt"), AS_QUIT),
   ((AS_REASON_CODE, "GET_LINE", "ask_revocation_reason.text"), AS_REASON_TEXT),
   ((AS_REASON_TEXT, "GET_LINE", "keyedit.prompt"), AS_QUIT),
   ((AS_REASON_TEXT, "GET_LINE", "ask_revocation_reason.text"), AS_REASON_TEXT),
   ((AS_REASON_TEXT, "GET_BOOL", "ask_revocation_reason.okay"), AS_REALLY_ULTIMATE),
   ((AS_REALLY_ULTIMATE, "GET_LINE", "keyedit.prompt"), AS_QUIT),
   ((AS_REALLY_ULTIMATE, "GET_LINE", "ask_revocation_reason.code"), AS_REASON_CODE),
   ((AS_QUIT, "GET_BOOL", "keyedit.save.okay"), AS_SAVE),
   ((AS_ERROR, "GET_LINE", "keyedit.prompt"), AS_QUIT)]

/-- The texts sent by `n` successive invocations of the action of `RevokeSubkey` at
`AS_REASON_TEXT`, and the list `reason_text_lines` they leave behind. -/
def reason_text_entries (subkey_index reason_code : Int) :
    Nat → List String → AutomatonHandelStruct → List String × List String
  | 0, reason_text_lines, _ => ([], reason_text_lines)
  | n + 1, reason_text_lines, handler =>
    let r := RevokeSubkey.action_handler subkey_index reason_code reason_text_lines handler
      AS_REASON_TEXT
    let rest := reason_text_entries subkey_index reason_code n r.2.2 r.2.1
    (r.1 :: rest.1, rest.2)

/-- The status events `SetOwnerTrustLevel` expects, in order. -/
def SetOwnerTrustLevel.expected_events : List (String × String) :=
  [("GET_LINE", "keyedit.prompt"), ("GET_LINE", "edit_ownertrust.value"),
   ("GET_LINE", "keyedit.prompt"), ("GET_BOOL", "keyedit.save.okay")]

/-- For the tables `next` and `action`: the action at `AS_ERROR` sends the empty
text and leaves the handler struct as it was; the turn of a run that enters
`AS_ERROR` leaves the success flag as it was before that turn; and it is the last
turn of the run: the run on `pre ++ post` is the run on `pre` when the run on `pre`
has entered `AS_ERROR`, so that no action is invoked after it. -/
def error_never_sets_success {κ : Type}
    (next : AutomatonState → String → String → AutomatonState)
    (action : κ → AutomatonHandelStruct → AutomatonState → String × AutomatonHandelStruct × κ)
    (cap : κ) : Prop :=
  (∀ (c : κ) (handler : AutomatonHandelStruct),
    (action c handler AS_ERROR).1 = "" ∧ (action c handler AS_ERROR).2.1 = handler) ∧
  (∀ (events : List (String × String)) (event : String × String),
    (interact next action cap (events ++ [event])).state = AS_ERROR →
    (interact next action cap (events ++ [event])).handler.success
      = (interact next action cap events).handler.success) ∧
  (∀ (pre post : List (String × String)),
    (interact next action cap pre).state = AS_ERROR →
    interact next action cap (pre ++ post) = interact next action cap pre)

/-- The status events `RevokeSubkey` expects when the engine asks `n + 1` times for
a line of the reason text. -/
def RevokeSubkey.expected_events (n : Nat) : List (String × String) :=
  [("GET_LINE", "keyedit.prompt"), ("GET_LINE", "keyedit.prompt"),
   ("GET_BOOL", "keyedit.revoke.subkey.okay"), ("GET_LINE", "ask_revocation_reason.code")]
  ++ List.replicate (n + 1) ("GET_LINE", "ask_revocation_reason.text")
  ++ [("GET_BOOL", "ask_revocation_reason.okay"), ("GET_LINE", "keyedit.prompt"),
      ("GET_BOOL", "keyedit.save.okay")]

/-- The table `next` admits the step from `s` to `t`: some status event takes
`s` to `t`. -/
def admits (next : AutomatonState → String → String → AutomatonState)
    (s t : AutomatonState) : Prop :=
  ∃ status args, next s status args = t

/-- The states `path` can be entered one after another from `s` by steps the table
admits, none of them `AS_ERROR`. -/
def path_from (next : AutomatonState → String → String → AutomatonState) :
    AutomatonState → List AutomatonState → Prop
  | _, [] => True
  | s, t :: rest => t ≠ AS_ERROR ∧ admits next s t ∧ path_from next t rest

/-- The action at the last state of the list sets the success flag, and the
action at no earlier state of the list does. -/
def first_success (sets : AutomatonState → Bool) : List AutomatonState → Prop
  | [] => False
  | [t] => sets t = true
  | t :: u :: rest => sets t = false ∧ first_success sets (u :: rest)

/-- The list `path` is a state path from `AS_START`, admitted by the table without
visiting `AS_ERROR`, that ends at the first action setting the success flag. -/
def reaches_success (next : AutomatonState → String → String → AutomatonState)
    (sets : AutomatonState → Bool) (path : List AutomatonState) : Prop :=
  ∃ rest, path = AS_START :: rest ∧ path_from next AS_START rest ∧ first_success sets path

/-- Whether the action of `SetOwnerTrustLevel` at `state` sets the success flag. -/
def SetOwnerTrustLevel.sets_success (trust_level : Int) (state : AutomatonState) : Bool :=
  (SetOwnerTrustLevel.action_handler trust_level { success := false } state).2.success

/-- Whether the action of `DeleteSubkey` at `state` sets the success flag. -/
def DeleteSubkey.sets_success (subkey_index : Int) (state : AutomatonState) : Bool :=
  (DeleteSubkey.action_handler subkey_index { success := false } state).2.success

/-- Whether the action of `RevokeSubkey` at `state` sets the success flag. -/
def RevokeSubkey.sets_success (subkey_index reason_code : Int) (reason_text_lines : List String)
    (state : AutomatonState) : Bool :=
  (RevokeSubkey.action_handler subkey_index reason_code reason_text_lines { success := false }
    state).2.1.success

/-! ## Task::Impl -/

namespace Thread

/-- A thread, identified with the `QThread` object that stands for it. -/
abbrev QThread := Nat

/-- The identity of a data object (`DataObjectPtr`). -/
abbrev DataObjectPtr := Nat

/-- The values of `Qt::ConnectionType` that `TaskImpl.hpp` uses; `invokeMethod`
without a type uses `AutoConnection`. -/
inductive ConnectionType
  | AutoConnection
  | BlockingQueuedConnection
deriving DecidableEq, Repr

/-- How `QMetaObject::invokeMethod` runs a functor: `direct`, inside the call, on the
calling thread; `queued`, later, by the event loop of the thread the context object
lives in, the call returning at once; `blocking`, by that event loop, the call
returning when the functor has returned; `deadlock`, never, the call never
returning. -/
inductive Delivery
  | direct
  | queued
  | blocking
  | deadlock
deriving DecidableEq, Repr

/-- The rule of the Qt documentation for `Qt::ConnectionType`: `AutoConnection` is a
direct call when the context object lives in the calling thread and a queued one
otherwise; `BlockingQueuedConnection` blocks the caller until the functor has
returned, and deadlocks when the context object lives in the calling thread. -/
def delivery (type : ConnectionType) (context_thread current_thread : QThread) : Delivery :=
  match type with
  | ConnectionType.AutoConnection =>
    if context_thread = current_thread then Delivery.direct else Delivery.queued
  | ConnectionType.BlockingQueuedConnection =>
    if context_thread = current_thread then Delivery.deadlock else Delivery.blocking

/-- What a call observes of Qt: the calling thread, the thread each `QThread` object
lives in, and whether `invokeMethod` accepts the invocation (its return value). -/
structure QtEnv where
  currentThread : QThread
  lives_in : QThread → QThread
  invoke_ok : Bool

/-- What a task does, in the order it happens: `Run` has returned with `rtn_` set
to `rtn`; a signal is emitted; the callback has been called with its two arguments
and has returned; an error is logged; the call made by the submitter has
returned. -/
inductive Event
  | Run (rtn : Int)
  | SignalTaskRunnableEnd (rtn : Int)
  | callback (rtn : Int) (data_object : DataObjectPtr)
  | SignalTaskEnd
  | error (message : String)
  | returned
deriving DecidableEq, Repr

/-- The fields of `Task::Impl` its methods read or write; `callback_` is `true` for
a non-null `TaskCallback`, `thread` is `QObject::thread()`. -/
structure Task.Impl where
  sequency_ : Bool
  callback_ : Bool
  runnable_ : Option (DataObjectPtr → Int)
  run_callback_after_runnable_finished_ : Bool
  rtn_ : Int
  callback_thread_ : QThread
  data_object_ : DataObjectPtr
  thread : QThread

/-- `Task::Impl::SetRTN`. -/
def Task.Impl.SetRTN (t : Task.Impl) (rtn : Int) : Task.Impl :=
  { t with rtn_ := rtn }

/-- `Task::Impl::Run`. -/
def Task.Impl.Run (t : Task.Impl) : Task.Impl :=
  match t.runnable_ with
  | some runnable => t.SetRTN (runnable t.data_object_)
  | none => t

/-- The lambda `runnable_package` of `RunnableInterfaceRun`: `Run()`, then the signal
`SignalTaskRunnableEnd(rtn_)` when `run_callback_after_runnable_finished_`. -/
def Task.Impl.runnable_package (t : Task.Impl) : Task.Impl × List Event :=
  let t1 := t.Run
  (t1, Event.Run t1.rtn_ ::
    (if t1.run_callback_after_runnable_finished_ then [Event.SignalTaskRunnableEnd t1.rtn_]
     else []))

/-- The invocation `RunnableInterfaceRun` asks Qt for: the connection type and the
thread the context object lives in (`thread()` is a `QThread` object, `this` lives
in `thread()`). -/
def Task.Impl.invocation (t : Task.Impl) (env : QtEnv) : ConnectionType × QThread :=
  if t.thread ≠ env.currentThread then
    if t.sequency_ then
      (ConnectionType.BlockingQueuedConnection, env.lives_in t.thread)
    else
      (ConnectionType.AutoConnection, env.lives_in t.thread)
  else
    (ConnectionType.AutoConnection, t.thread)

/-- `Task::Impl::RunnableInterfaceRun`, with the events in the order they happen. -/
def Task.Impl.RunnableInterfaceRun (t : Task.Impl) (env : QtEnv) : Task.Impl × List Event :=
  if env.invoke_ok then
    match delivery (t.invocation env).1 (t.invocation env).2 env.currentThread with
    | Delivery.direct => (t.runnable_package.1, t.runnable_package.2 ++ [Event.returned])
    | Delivery.blocking => (t.runnable_package.1, t.runnable_package.2 ++ [Event.returned])
    | Delivery.queued => (t.runnable_package.1, Event.returned :: t.runnable_package.2)
    | Delivery.deadlock => (t, [])
  else
    (t, [Event.error "qt invoke method failed", Event.returned])

/-- `Task::Impl::SlotRun`. -/
def Task.Impl.SlotRun (t : Task.Impl) (env : QtEnv) : Task.Impl × List Event :=
  t.RunnableInterfaceRun env

/-- `Task::Impl::slot_task_run_callback`, with the events of the handler and of the
functor it hands to Qt, in the order they happen.  The callback is taken to return
normally. -/
def Task.Impl.slot_task_run_callback (t : Task.Impl) (rtn : Int) (env : QtEnv) :
    Task.Impl × List Event :=
  let t1 := t.SetRTN rtn
  if t1.callback_ then
    if t1.callback_thread_ = env.currentThread then
      if env.invoke_ok then
        -- default connection type: the functor runs, directly or queued; then `return`
        (t1, [Event.callback t1.rtn_ t1.data_object_, Event.SignalTaskEnd])
      else
        (t1, [Event.error "failed to invoke callback"])
    else
      if env.invoke_ok then
        match delivery ConnectionType.BlockingQueuedConnection
            (env.lives_in t1.callback_thread_) env.currentThread with
        | Delivery.deadlock => (t1, [])
        | _ => (t1, [Event.callback t1.rtn_ t1.data_object_, Event.SignalTaskEnd])
      else
        (t1, [Event.error "failed to invoke callback", Event.SignalTaskEnd])
  else
    (t1, [Event.SignalTaskEnd])

/-- The completion handler runs once for each `SignalTaskRunnableEnd` of `events`
(the connection made by `init`), on the thread the task lives in; `invoke_ok` says
whether its `invokeMethod` is accepted. -/
def Task.Impl.completions (lives_in : QThread → QThread) (invoke_ok : Bool) :
    Task.Impl → List Event → Task.Impl × List Event
  | t, [] => (t, [])
  | t, Event.SignalTaskRunnableEnd rtn :: rest =>
    let r := t.slot_task_run_callback rtn
      { currentThread := t.thread, lives_in := lives_in, invoke_ok := invoke_ok }
    let more := Task.Impl.completions lives_in invoke_ok r.1 rest
    (more.1, r.2 ++ more.2)
  | t, _ :: rest => Task.Impl.completions lives_in invoke_ok t rest

/-- An operation on a task: a call of `SlotRun` or of `RunnableInterfaceRun`, with
what the call observes of Qt and whether the `invokeMethod` of the completion
handler is accepted. -/
inductive Operation
  | SlotRun (env : QtEnv) (callback_invoke_ok : Bool)
  | RunnableInterfaceRun (env : QtEnv) (callback_invoke_ok : Bool)

/-- An operation on a task: the events of the call, and the events of the
completion handler runs its signals set off (no order between the two lists is
meant). -/
def Task.Impl.perform (t : Task.Impl) : Operation → Task.Impl × List Event × List Event
  | Operation.SlotRun env ok =>
    let r := t.SlotRun env
    let c := Task.Impl.completions env.lives_in ok r.1 r.2
    (c.1, r.2, c.2)
  | Operation.RunnableInterfaceRun env ok =>
    let r := t.RunnableInterfaceRun env
    let c := Task.Impl.completions env.lives_in ok r.1 r.2
    (c.1, r.2, c.2)

/-- The events of a sequence of operations on a task, operation by operation. -/
def Task.Impl.perform_all : Task.Impl → List Operation → List (List Event × List Event)
  | _, [] => []
  | t, op :: rest => (t.perform op).2 :: Task.Impl.perform_all (t.perform op).1 rest

/-- Whether an event is an invocation of the callback. -/
def Event.is_callback : Event → Bool
  | Event.callback _ _ => true
  | _ => false

/-- Whether an event is an emission of `SignalTaskRunnableEnd`. -/
def Event.is_runnable_end : Event → Bool
  | Event.SignalTaskRunnableEnd _ => true
  | _ => false

/-- The number of invocations of the callback in the events of a sequence of
operations. -/
def callback_invocations (outcomes : List (List Event × List Event)) : Nat :=
  (outcomes.map (fun o => (o.1 ++ o.2).countP Event.is_callback)).sum

/-- What the body of the callback does when it is called: it returns, it throws
an exception derived from `std::exception` whose `what()` is `what`, or it throws
another value. -/
inductive CallbackBody
  | returns
  | throws_exception (what : String)
  | throws_other
deriving DecidableEq, Repr

/-- An event of a run of the completion handler whose callback may throw: an event
of `Event`; the callback called with its two arguments and throwing; the exception
leaving the functor inside the event loop of `thread`, which ran it: no frame of
`slot_task_run_callback` is on the stack of that thread. -/
inductive HandlerEvent
  | event (e : Event)
  | thrown (rtn : Int) (data_object : DataObjectPtr)
  | escaped (thread : QThread)
deriving DecidableEq, Repr

/-- The two catch clauses of `slot_task_run_callback`: the message logged for what
the callback threw. -/
def caught_message : CallbackBody → Option String
  | CallbackBody.returns => none
  | CallbackBody.throws_exception what => some ("exception caught: " ++ what)
  | CallbackBody.throws_other => some "unknown exception caught"

/-- `Task::Impl::slot_task_run_callback` for a callback that does `body`.  A functor
called directly throws into the `try` block of the handler: the matching catch
clause logs, and the handler goes on to the emission after the block.  A functor run
by the event loop of another thread throws there.  Qt leaves undefined what follows
an exception that leaves an event loop: `resumes` says whether the blocked
`invokeMethod` of the handler returns afterwards. -/
def Task.Impl.slot_task_run_callback_body (t : Task.Impl) (body : CallbackBody)
    (resumes : Bool) (rtn : Int) (env : QtEnv) : Task.Impl × List HandlerEvent :=
  let t1 := t.SetRTN rtn
  if t1.callback_ then
    if t1.callback_thread_ = env.currentThread then
      if env.invoke_ok then
        match caught_message body with
        | none =>
          (t1, [HandlerEvent.event (Event.callback t1.rtn_ t1.data_object_),
                HandlerEvent.event Event.SignalTaskEnd])
        | some message =>
          match delivery ConnectionType.AutoConnection
              (env.lives_in t1.callback_thread_) env.currentThread with
          | Delivery.direct =>
            -- caught by the handler; the `return` of the branch is not reached
            (t1, [HandlerEvent.thrown t1.rtn_ t1.data_object_,
                  HandlerEvent.event (Event.error message),
                  HandlerEvent.event Event.SignalTaskEnd])
          | _ =>
            -- the handler has returned when the functor runs
            (t1, [HandlerEvent.thrown t1.rtn_ t1.data_object_,
                  HandlerEvent.escaped (env.lives_in t1.callback_thread_)])
      else
        (t1, [HandlerEvent.event (Event.error "failed to invoke callback")])
    else
      if env.invoke_ok then
        match delivery ConnectionType.BlockingQueuedConnection
            (env.lives_in t1.callback_thread_) env.currentThread with
        | Delivery.deadlock => (t1, [])
        | _ =>
          match caught_message body with
          | none =>
            (t1, [HandlerEvent.event (Event.callback t1.rtn_ t1.data_object_),
                  HandlerEvent.event Event.SignalTaskEnd])
          | some _ =>
            (t1, [HandlerEvent.thrown t1.rtn_ t1.data_object_,
                  HandlerEvent.escaped (env.lives_in t1.callback_thread_)]
                ++ (if resumes then [HandlerEvent.event Event.SignalTaskEnd] else []))
      else
        (t1, [HandlerEvent.event (Event.error "failed to invoke callback"),
              HandlerEvent.event Event.SignalTaskEnd])
  else
    (t1, [HandlerEvent.event Event.SignalTaskEnd])

end Thread

/-! ## GpgKeyManager: the three operations -/

/-- What a call of one of the three operations did: the value it returned, whether
it called `DoInteract`, the turns of the interaction, and the warnings it logged. -/
structure Operated where
  returned : Bool
  interacted : Bool
  turns : List Turn
  warnings : List String
deriving DecidableEq, Repr

/-- `GpgKeyManager::SetOwnerTrustLevel`.  The test on `trust_level` guards a log
line only; `events` and `process_ok` are what the engine does during the
interaction. -/
def GpgKeyManager.SetOwnerTrustLevel (trust_level : Int) (events : List (String × String))
    (process_ok : Bool) : Operated :=
  let warnings :=
    if trust_level < 1 ∨ trust_level > 5 then
      ["illegal owner trust level: " ++ QString_number trust_level]
    else []
  { returned := DoInteract SetOwnerTrustLevel.next_state_handler
      (stateless (SetOwnerTrustLevel.action_handler trust_level)) () events process_ok,
    interacted := true,
    turns := (interact SetOwnerTrustLevel.next_state_handler
      (stateless (SetOwnerTrustLevel.action_handler trust_level)) () events).turns,
    warnings := warnings }

/-- `GpgKeyManager::DeleteSubkey`; `subkeys` is `key.GetSubKeys()->size()`. -/
def GpgKeyManager.DeleteSubkey (subkeys : Nat) (subkey_index : Int)
    (events : List (String × String)) (process_ok : Bool) : Operated :=
  if subkey_index < 0 ∨ subkey_index ≥ (subkeys : Int) then
    { returned := false, interacted := false, turns := [],
      warnings := ["illegal subkey index: " ++ QString_number subkey_index] }
  else
    { returned := DoInteract DeleteSubkey.next_state_handler
        (stateless (DeleteSubkey.action_handler subkey_index)) () events process_ok,
      interacted := true,
      turns := (interact DeleteSubkey.next_state_handler
        (stateless (DeleteSubkey.action_handler subkey_index)) () events).turns,
      warnings := [] }

/-- `QString::split(sep)` on the characters of a string, empty parts kept: the
segments between the occurrences of `sep`, in order. -/
def split_chars (sep : Char) : List Char → List (List Char)
  | [] => [[]]
  | c :: cs =>
    if c = sep then [] :: split_chars sep cs
    else
      match split_chars sep cs with
      | [] => [[c]]
      | segment :: rest => (c :: segment) :: rest

/-- `QString::split(sep)`. -/
def QString_split (s : String) (sep : Char) : List String :=
  (split_chars sep s.data).map String.mk

/-- `QString::split(sep, Qt::SkipEmptyParts)`. -/
def QString_split_SkipEmptyParts (s : String) (sep : Char) : List String :=
  (QString_split s sep).filter (fun part => !part.isEmpty)

/-- `GpgKeyManager::RevokeSubkey`. -/
def GpgKeyManager.RevokeSubkey (subkeys : Nat) (subkey_index reason_code : Int)
    (reason_text : String) (events : List (String × String)) (process_ok : Bool) : Operated :=
  if subkey_index < 0 ∨ subkey_index ≥ (subkeys : Int) then
    { returned := false, interacted := false, turns := [],
      warnings := ["illegal subkey index: " ++ QString_number subkey_index] }
  else if reason_code < 0 ∨ reason_code > 3 then
    { returned := false, interacted := false, turns := [],
      warnings := ["illegal reason code: " ++ QString_number reason_code] }
  else
    -- dealing with reason text
    let reason_text_lines := QString_split_SkipEmptyParts reason_text '\n'
    { returned := DoInteract RevokeSubkey.next_state_handler
        (RevokeSubkey.action_handler subkey_index reason_code) reason_text_lines events
        process_ok,
      interacted := true,
      turns := (interact RevokeSubkey.next_state_handler
        (RevokeSubkey.action_handler subkey_index reason_code) reason_text_lines events).turns,
      warnings := [] }

/-! ## CommonUtils -/

/-- `QString::toInt()`: the value of a decimal integer, with an optional sign and
surrounding white space, that fits a 32-bit `int`; `0` when the text is not one. -/
def QString_toInt (s : String) : Int :=
  let parsed : Option Int :=
    match s.trim.data with
    | '+' :: digits => (String.mk digits).toNat?.map Int.ofNat
    | _ => s.trim.toInt?
  match parsed with
  | some n => if -2147483648 ≤ n ∧ n ≤ 2147483647 then n else 0
  | none => 0

/-- The lambda `remove_prefix` of `GFCompareSoftwareVersion`:
`version.startsWith('v') ? version.mid(1) : version`. -/
def remove_prefix (version : String) : String :=
  match version.data with
  | 'v' :: rest => String.mk rest
  | _ => version

/-- The loop `for (int i = 0; i < min_depth; ++i)` of `GFCompareSoftwareVersion`
over the parts at the same position: the value returned from inside the loop, if
any. -/
def compare_parts : List String → List String → Option Int
  | part_a :: rest_a, part_b :: rest_b =>
    let num_a := QString_toInt part_a
    let num_b := QString_toInt part_b
    if num_a ≠ num_b then some (if num_a > num_b then 1 else -1)
    else compare_parts rest_a rest_b
  | _, _ => none

/-- `GFCompareSoftwareVersion`. -/
def GFCompareSoftwareVersion (a b : String) : Int :=
  let real_version_a := remove_prefix a
  let real_version_b := remove_prefix b
  let split_a := QString_split real_version_a '.'
  let split_b := QString_split real_version_b '.'
  match compare_parts split_a split_b with
  | some result => result
  | none =>
    if split_a.length ≠ split_b.length then
      (if split_a.length > split_b.length then 1 else -1)
    else 0

/-- The loop of `BeautifyFingerprint` from the index `count` on, over the
characters not yet written: a space goes before the character at an index that is
a multiple of five and not zero. -/
def beautify_from : Nat → List Char → List Char
  | _, [] => []
  | count, c :: rest =>
    (if count ≠ 0 ∧ count % 5 = 0 then [' ', c] else [c]) ++ beautify_from (count + 1) rest

/-- `BeautifyFingerprint`. -/
def BeautifyFingerprint (fingerprint : String) : String :=
  String.mk (beautify_from 0 fingerprint.data)

/-- The groups of five of a list of characters, the last one possibly shorter. -/
def groups_of_five : List Char → List (List Char)
  | [] => []
  | c :: rest => (c :: rest).take 5 :: groups_of_five ((c :: rest).drop 5)
termination_by cs => cs.length
decreasing_by
  simp only [List.length_drop, List.length_cons]
  omega

/-! ## HelpPage -/

/-- `QString::lastIndexOf(c)`: the index of the last occurrence of `c`, `-1` when
there is none. -/
def QString_lastIndexOf (s : List Char) (c : Char) : Int :=
  if c ∈ s then (s.length : Int) - 1 - (s.reverse.indexOf c : Int) else -1

/-- `QUrl(text).toLocalFile()` by the rule of the Qt documentation, for the plain
texts this file handles: the path of a URL whose scheme is `file`, and the empty
string for a text without scheme (as `QUrl("file.txt").toLocalFile()`). -/
def QUrl_toLocalFile (text : String) : String :=
  match text.data with
  | 'f' :: 'i' :: 'l' :: 'e' :: ':' :: '/' :: '/' :: path => String.mk path
  | 'f' :: 'i' :: 'l' :: 'e' :: ':' :: path => String.mk path
  | _ => ""

/-- The candidate `langfile` of `HelpPage::localized_help` for the local file
`path` of the requested URL: `lang` inserted as the second dot-separated part of
the file name.  `setting` is the stored value of `int/lang`, if any, `locale_name`
is `QLocale().name()`. -/
def langfile (setting : Option String) (locale_name : String) (path : String) : String :=
  let cut := (QString_lastIndexOf path.data '/' + 1).toNat
  let filename := String.mk (path.data.drop cut)
  let filepath := String.mk (path.data.take cut)
  let fileparts := QString_split filename '.'
  let lang := setting.getD locale_name
  let lang := if lang.isEmpty then locale_name else lang
  let fileparts :=
    match fileparts with
    | first :: rest => first :: lang :: rest
    | [] => [lang]
  filepath ++ ".".intercalate fileparts

/-- `HelpPage::localized_help`, on the local file `path` of the requested URL;
`toLocalFile text` is `QUrl(text).toLocalFile()` and `file_exists name` is
`QFile(name).exists()`.  The result is the text of the URL returned. -/
def localized_help (setting : Option String) (locale_name : String)
    (toLocalFile : String → String) (file_exists : String → Bool) (path : String) : String :=
  if file_exists (toLocalFile (langfile setting locale_name path)) then
    langfile setting locale_name path
  else path

/-! ### The completion phase -/

theorem for_key_dbs_length (body : Nat → KeyDatabaseInfo → Execution) (k : Nat)
    (dbs : List KeyDatabaseInfo) : (for_key_dbs body k dbs).length = dbs.length := by
  induction dbs generalizing k with
  | nil => rfl
  | cons d rest ih => simp [for_key_dbs, ih]

theorem for_key_dbs_get? (body : Nat → KeyDatabaseInfo → Execution) (k i : Nat)
    (dbs : List KeyDatabaseInfo) :
    (for_key_dbs body k dbs).get? i = (dbs.get? i).map (body (k + i)) := by
  induction dbs generalizing k i with
  | nil => simp [for_key_dbs]
  | cons d rest ih =>
    cases i with
    | zero => simp [for_key_dbs]
    | succ j =>
      simp only [for_key_dbs, List.get?_cons_succ]
      rw [ih]
      have : k + 1 + j = k + (j + 1) := by omega
      rw [this]

theorem for_key_dbs_ctx (mk : KeyDatabaseInfo → ExecuteContext)
    (f : Nat → Int → LoopState → LoopState) (k : Nat) (dbs : List KeyDatabaseInfo) :
    (for_key_dbs (fun i db => { ctx := mk db, exit_func := f i }) k dbs).map (fun e => e.ctx)
      = dbs.map mk := by
  induction dbs generalizing k with
  | nil => rfl
  | cons d rest ih => simp [for_key_dbs, ih]

/-- The lambdas of a loop over `dbs`, run on a schedule that names only channels of
the loop, are the calls of `on_exit` with the channel's position. -/
theorem complete_for_key_dbs (mk : KeyDatabaseInfo → ExecuteContext) (N : Int) (cb : Bool)
    (dbs : List KeyDatabaseInfo) (sched : List (Nat × Int))
    (h : ∀ ev ∈ sched, ev.1 < dbs.length) (s : LoopState) :
    complete (for_key_dbs (fun i db => { ctx := mk db, exit_func := on_exit N cb i }) 0 dbs)
        sched s
      = sched.foldl (fun st ev => on_exit N cb ev.1 ev.2 st) s := by
  induction sched generalizing s with
  | nil => rfl
  | cons ev rest ih =>
    have hev : ev.1 < dbs.length := h ev (List.mem_cons_self _ _)
    have hrest : ∀ e ∈ rest, e.1 < dbs.length := fun e he => h e (List.mem_cons_of_mem _ he)
    have hget : (for_key_dbs (fun i db => ({ ctx := mk db, exit_func := on_exit N cb i } : Execution))
        0 dbs).get? ev.1 = some { ctx := mk (dbs.get ⟨ev.1, hev⟩), exit_func := on_exit N cb ev.1 } := by
      rw [for_key_dbs_get?, List.get?_eq_get hev]
      simp
    have ih2 := ih hrest (on_exit N cb ev.1 ev.2 s)
    simp only [complete, List.foldl_cons] at ih2 ⊢
    rw [hget]
    exact ih2

theorem set_map_range (N i : Nat) (v : Int) (f : Nat → Int) :
    ((List.range N).map f).set i v = (List.range N).map (fun j => if j = i then v else f j) := by
  apply List.ext_getElem
  · simp
  · intro n h1 h2
    simp only [List.length_set, List.length_map, List.length_range] at h1
    simp only [List.getElem_set, List.getElem_map, List.getElem_range]
    by_cases hni : i = n
    · subst hni; simp
    · have : ¬ n = i := fun e => hni e.symm
      simp [hni, this]

theorem map_range_getD (codes : List Int) :
    (List.range codes.length).map (fun i => codes.getD i 0) = codes := by
  apply List.ext_getElem
  · simp
  · intro n h1 h2
    simp [List.getD_eq_getElem?_getD, List.getElem?_eq_getElem h2]

theorem replicate_eq_map_range (N : Nat) :
    List.replicate N (0 : Int) = (List.range N).map (fun _ => 0) := by
  apply List.ext_getElem <;> simp

theorem length_le_of_nodup_lt (N : Nat) (order : List Nat) (hnd : order.Nodup)
    (hlt : ∀ i ∈ order, i < N) : order.length ≤ N := by
  have hsub : order ⊆ List.range N := fun i hi => List.mem_range.mpr (hlt i hi)
  have := (List.subperm_of_subset hnd hsub).length_le
  simpa using this

/-- The state of a loop of `N` channels after the channels of `order` (distinct,
all below `N`) have completed with the exit codes `codes`. -/
theorem on_exit_fold (N : Nat) (cb : Bool) (codes : List Int) (order : List Nat)
    (hnd : order.Nodup) (hlt : ∀ i ∈ order, i < N) :
    (schedule_of codes order).foldl (fun st ev => on_exit (N : Int) cb ev.1 ev.2 st)
        { completed_tasks := 0, results := List.replicate N 0, cb_calls := [] }
      = { completed_tasks := order.length,
          results := (List.range N).map (fun j => if j ∈ order then codes.getD j 0 else 0),
          cb_calls := if order ≠ [] ∧ order.length = N ∧ cb = true then
              [aggregate ((List.range N).map (fun j => if j ∈ order then codes.getD j 0 else 0))]
            else [] } := by
  induction order using List.reverseRecOn with
  | nil =>
    simp only [schedule_of, List.map_nil, List.foldl_nil, List.length_nil, ne_eq,
      not_true_eq_false, false_and, if_false, List.not_mem_nil, replicate_eq_map_range]
    rfl
  | append_singleton pre i ih =>
    have hnd2 : pre.Nodup := (List.nodup_append.mp hnd).1
    have hlt2 : ∀ j ∈ pre, j < N := fun j hj => hlt j (List.mem_append_left _ hj)
    have hlen : (pre ++ [i]).length ≤ N := length_le_of_nodup_lt N _ hnd hlt
    have hpre : pre.length < N := by simp at hlen; omega
    have ih2 := ih hnd2 hlt2
    simp only [schedule_of, List.map_append, List.map_cons, List.map_nil, List.foldl_append,
      List.foldl_cons, List.foldl_nil] at ih2 ⊢
    rw [ih2]
    have hne : ¬ (pre.length = N) := by omega
    have hres : ((List.range N).map (fun j => if j ∈ pre then codes.getD j 0 else 0)).set i
          (codes.getD i 0)
        = (List.range N).map (fun j => if j ∈ pre ++ [i] then codes.getD j 0 else 0) := by
      rw [set_map_range]
      apply List.map_congr_left
      intro j _
      by_cases hji : j = i
      · subst hji; simp
      · simp [hji]
    simp only [on_exit, hres, hne, false_and, and_false, if_false, List.nil_append]
    by_cases hfull : pre.length + 1 = N
    · have h1 : ((pre.length : Int) + 1 = (N : Int)) := by omega
      cases cb <;> simp [hfull, h1, aggregate]
    · have h1 : ¬ ((pre.length : Int) + 1 = (N : Int)) := by omega
      simp [hfull, h1]

/-- Every dispatch operation with a resolved path is one loop over the key
databases whose lambdas are `on_exit` at the position of the channel. -/
theorem dispatch_shape (home : String → String)
    (op : String → List KeyDatabaseInfo → Bool → Outcome) (hop : op ∈ dispatch_operations home)
    (gpgconf_path : String) (hpath : gpgconf_path.isEmpty = false)
    (key_dbs : List KeyDatabaseInfo) (cb : Bool) :
    ∃ mk : KeyDatabaseInfo → ExecuteContext, op gpgconf_path key_dbs cb =
      { cb_calls := [], enumerations := 1,
        loops := [{
          total_tasks := (key_dbs.length : Int), cb := cb,
          init := { completed_tasks := 0, results := List.replicate key_dbs.length 0,
                    cb_calls := [] },
          executions := for_key_dbs (fun i db =>
            { ctx := mk db, exit_func := on_exit (key_dbs.length : Int) cb i }) 0 key_dbs }] } := by
  simp only [dispatch_operations, List.mem_cons, List.mem_singleton, List.not_mem_nil,
    or_false] at hop
  rcases hop with h | h | h | h | h <;> subst h
  · exact ⟨_, by simp only [ClearGpgPasswordCache, hpath]; rfl⟩
  · exact ⟨_, by simp only [ReloadGpgComponents, hpath]; rfl⟩
  · exact ⟨_, by simp only [KillAllGpgComponents, hpath]; rfl⟩
  · exact ⟨_, by simp only [ResetConfigures, hpath]; rfl⟩
  · exact ⟨_, by simp only [LaunchGpgComponents, hpath]; rfl⟩

theorem schedule_of_lt (codes : List Int) (order : List Nat) (N : Nat)
    (hlt : ∀ i ∈ order, i < N) : ∀ ev ∈ schedule_of codes order, ev.1 < N := by
  intro ev hev
  simp only [schedule_of, List.mem_map] at hev
  obtain ⟨i, hi, rfl⟩ := hev
  exact hlt i hi

/-- The state of the loop of a dispatch operation after the channels of `order`
have completed. -/
theorem dispatch_after (home : String → String)
    (op : String → List KeyDatabaseInfo → Bool → Outcome) (hop : op ∈ dispatch_operations home)
    (gpgconf_path : String) (hpath : gpgconf_path.isEmpty = false)
    (key_dbs : List KeyDatabaseInfo) (cb : Bool) (codes : List Int) (order : List Nat)
    (hnd : order.Nodup) (hlt : ∀ i ∈ order, i < key_dbs.length) :
    (op gpgconf_path key_dbs cb).cb_calls = [] ∧
    List.zipWith (fun l sch => DispatchLoop.after l sch) (op gpgconf_path key_dbs cb).loops
        [schedule_of codes order]
      = [{ completed_tasks := order.length,
           results := (List.range key_dbs.length).map
             (fun j => if j ∈ order then codes.getD j 0 else 0),
           cb_calls := if order ≠ [] ∧ order.length = key_dbs.length ∧ cb = true then
               [aggregate ((List.range key_dbs.length).map
                 (fun j => if j ∈ order then codes.getD j 0 else 0))]
             else [] }] := by
  obtain ⟨mk, hmk⟩ := dispatch_shape home op hop gpgconf_path hpath key_dbs cb
  rw [hmk]
  refine ⟨rfl, ?_⟩
  simp only [List.zipWith_cons_cons, List.zipWith_nil_right, DispatchLoop.after]
  rw [complete_for_key_dbs mk _ cb key_dbs _ (schedule_of_lt codes order _ hlt),
    on_exit_fold key_dbs.length cb codes order hnd hlt]

theorem perm_range_facts (N : Nat) (order : List Nat) (h : order.Perm (List.range N)) :
    order.Nodup ∧ (∀ i ∈ order, i < N) ∧ order.length = N ∧ ∀ j ∈ List.range N, j ∈ order := by
  refine ⟨h.nodup_iff.mpr (List.nodup_range N), ?_, ?_, ?_⟩
  · intro i hi
    exact List.mem_range.mp (h.mem_iff.mp hi)
  · simpa using h.length_eq
  · intro j hj
    exact h.mem_iff.mpr hj

theorem results_all_written (codes : List Int) (order : List Nat)
    (h : order.Perm (List.range codes.length)) :
    (List.range codes.length).map (fun j => if j ∈ order then codes.getD j 0 else 0) = codes := by
  have hmem := (perm_range_facts _ order h).2.2.2
  have : (List.range codes.length).map (fun j => if j ∈ order then codes.getD j 0 else 0)
      = (List.range codes.length).map (fun i => codes.getD i 0) := by
    apply List.map_congr_left
    intro j hj
    simp [hmem j hj]
  rw [this, map_range_getD]

theorem aggregate_eq (codes : List Int) :
    aggregate codes = if ∀ c ∈ codes, 0 ≤ c then 0 else -1 := by
  simp [aggregate, List.all_eq_true]

theorem callbacks_single (home : String → String)
    (op : String → List KeyDatabaseInfo → Bool → Outcome) (hop : op ∈ dispatch_operations home)
    (gpgconf_path : String) (hpath : gpgconf_path.isEmpty = false)
    (key_dbs : List KeyDatabaseInfo) (cb : Bool) (codes : List Int) (order : List Nat)
    (hnd : order.Nodup) (hlt : ∀ i ∈ order, i < key_dbs.length) :
    (op gpgconf_path key_dbs cb).callbacks [schedule_of codes order]
      = (if order ≠ [] ∧ order.length = key_dbs.length ∧ cb = true then
          [aggregate ((List.range key_dbs.length).map
            (fun j => if j ∈ order then codes.getD j 0 else 0))]
        else []) ∧
    (op gpgconf_path key_dbs cb).final_results [schedule_of codes order]
      = [(List.range key_dbs.length).map (fun j => if j ∈ order then codes.getD j 0 else 0)] := by
  obtain ⟨h1, h2⟩ := dispatch_after home op hop gpgconf_path hpath key_dbs cb codes order hnd hlt
  have h3 : List.zipWith (fun l sch => (DispatchLoop.after l sch).cb_calls)
      (op gpgconf_path key_dbs cb).loops [schedule_of codes order]
      = (List.zipWith (fun l sch => DispatchLoop.after l sch)
          (op gpgconf_path key_dbs cb).loops [schedule_of codes order]).map
            (fun s => s.cb_calls) := by
    rw [List.map_zipWith]
  have h4 : List.zipWith (fun l sch => (DispatchLoop.after l sch).results)
      (op gpgconf_path key_dbs cb).loops [schedule_of codes order]
      = (List.zipWith (fun l sch => DispatchLoop.after l sch)
          (op gpgconf_path key_dbs cb).loops [schedule_of codes order]).map
            (fun s => s.results) := by
    rw [List.map_zipWith]
  constructor
  · simp only [Outcome.callbacks, h1, h3, h2, List.nil_append, List.map_cons, List.map_nil,
      List.flatten_cons, List.flatten_nil, List.append_nil]
  · simp only [Outcome.final_results, h4, h2, List.map_cons, List.map_nil]

/-- The invocations of the callback of a dispatch operation once all the channels
have completed, in any order. -/
theorem callbacks_of_perm (home : String → String)
    (op : String → List KeyDatabaseInfo → Bool → Outcome) (hop : op ∈ dispatch_operations home)
    (gpgconf_path : String) (hpath : gpgconf_path.isEmpty = false)
    (key_dbs : List KeyDatabaseInfo) (hN : 1 ≤ key_dbs.length) (cb : Bool)
    (codes : List Int) (hcodes : codes.length = key_dbs.length)
    (order : List Nat) (horder : order.Perm (List.range key_dbs.length)) :
    (op gpgconf_path key_dbs cb).callbacks [schedule_of codes order]
      = if cb = true then [aggregate codes] else [] := by
  obtain ⟨hnd, hlt, hlen, -⟩ := perm_range_facts _ order horder
  have hne : order ≠ [] := by
    intro h
    rw [h] at hlen
    simp at hlen
    omega
  have hres := results_all_written codes order (by rw [hcodes]; exact horder)
  rw [hcodes] at hres
  rw [(callbacks_single home op hop gpgconf_path hpath key_dbs cb codes _ hnd hlt).1, hres]
  simp [hne, hlen]

/-! ### Aggregation of the exit codes -/

/-- C1: for `N >= 1` key databases, a resolved gpgconf path and a non-null callback,
each of the five dispatch operations, whatever the order in which its `N` lambdas
complete with the exit codes `codes`, passes the callback `0` when every exit code
is `>= 0` and `-1` otherwise. -/
theorem dispatch_callback_code (home : String → String)
    (op : String → List KeyDatabaseInfo → Bool → Outcome) (hop : op ∈ dispatch_operations home)
    (gpgconf_path : String) (hpath : gpgconf_path.isEmpty = false)
    (key_dbs : List KeyDatabaseInfo) (hN : 1 ≤ key_dbs.length)
    (codes : List Int) (hcodes : codes.length = key_dbs.length)
    (order : List Nat) (horder : order.Perm (List.range key_dbs.length)) :
    (op gpgconf_path key_dbs true).callbacks [schedule_of codes order]
      = [if ∀ c ∈ codes, 0 ≤ c then 0 else -1] := by
  rw [callbacks_of_perm home op hop gpgconf_path hpath key_dbs hN true codes hcodes order horder,
    aggregate_eq]
  rfl

/-- Witness of C1: `LaunchGpgComponents` on three key databases whose processes end
in the order 2, 0, 1 with the exit codes `[0, 0, -1]` passes `-1`. -/
theorem dispatch_callback_code_witness :
    (LaunchGpgComponents id "gpgconf"
        [⟨0, "a", "/a"⟩, ⟨1, "b", "/b"⟩, ⟨2, "c", "/c"⟩] true).callbacks
      [schedule_of [0, 0, -1] [2, 0, 1]] = [-1] := by
  have h := dispatch_callback_code id (LaunchGpgComponents id)
    (by simp [dispatch_operations]) "gpgconf" (by decide)
    [⟨0, "a", "/a"⟩, ⟨1, "b", "/b"⟩, ⟨2, "c", "/c"⟩] (by decide) [0, 0, -1] rfl [2, 0, 1]
    (by decide)
  simpa using h

/-- C2: for `N >= 1` key databases and every order in which the `N` lambdas of a
dispatch operation complete, a non-null callback has not been invoked after any
proper prefix of the completions, has been invoked exactly once after all of them
(so the invocation is made by the lambda that runs last), and at that point every
slot of `results` holds the exit code of its channel. -/
theorem dispatch_callback_once (home : String → String)
    (op : String → List KeyDatabaseInfo → Bool → Outcome) (hop : op ∈ dispatch_operations home)
    (gpgconf_path : String) (hpath : gpgconf_path.isEmpty = false)
    (key_dbs : List KeyDatabaseInfo) (hN : 1 ≤ key_dbs.length)
    (codes : List Int) (hcodes : codes.length = key_dbs.length)
    (order : List Nat) (horder : order.Perm (List.range key_dbs.length)) :
    (∀ k, k < key_dbs.length →
      (op gpgconf_path key_dbs true).callbacks [(schedule_of codes order).take k] = []) ∧
    ((op gpgconf_path key_dbs true).callbacks [schedule_of codes order]).length = 1 ∧
    (op gpgconf_path key_dbs true).final_results [schedule_of codes order] = [codes] := by
  obtain ⟨hnd, hlt, hlen, -⟩ := perm_range_facts _ order horder
  refine ⟨?_, ?_, ?_⟩
  · intro k hk
    have htake : (schedule_of codes order).take k = schedule_of codes (order.take k) := by
      simp [schedule_of, List.map_take]
    have hnd2 : (order.take k).Nodup := hnd.sublist (List.take_sublist k order)
    have hlt2 : ∀ i ∈ order.take k, i < key_dbs.length :=
      fun i hi => hlt i (List.mem_of_mem_take hi)
    have hlen2 : (order.take k).length ≠ key_dbs.length := by
      rw [List.length_take]
      omega
    rw [htake, (callbacks_single home op hop gpgconf_path hpath key_dbs true codes _ hnd2 hlt2).1]
    rw [if_neg]
    exact fun h => hlen2 h.2.1
  · have hne : order ≠ [] := by
      intro h
      rw [h] at hlen
      simp at hlen
      omega
    rw [(callbacks_single home op hop gpgconf_path hpath key_dbs true codes _ hnd hlt).1]
    simp [hne, hlen]
  · have hres := results_all_written codes order (by rw [hcodes]; exact horder)
    rw [hcodes] at hres
    rw [(callbacks_single home op hop gpgconf_path hpath key_dbs true codes _ hnd hlt).2, hres]

/-- Witness of C2: `KillAllGpgComponents` on three key databases, channel 2
finishing before channels 0 and 1. -/
theorem dispatch_callback_once_witness :
    (∀ k, k < 3 →
      (KillAllGpgComponents id "gpgconf"
        [⟨0, "a", "/a"⟩, ⟨1, "b", "/b"⟩, ⟨2, "c", "/c"⟩] true).callbacks
          [(schedule_of [0, 7, -1] [2, 0, 1]).take k] = []) ∧
    ((KillAllGpgComponents id "gpgconf"
        [⟨0, "a", "/a"⟩, ⟨1, "b", "/b"⟩, ⟨2, "c", "/c"⟩] true).callbacks
          [schedule_of [0, 7, -1] [2, 0, 1]]).length = 1 ∧
    (KillAllGpgComponents id "gpgconf"
        [⟨0, "a", "/a"⟩, ⟨1, "b", "/b"⟩, ⟨2, "c", "/c"⟩] true).final_results
          [schedule_of [0, 7, -1] [2, 0, 1]] = [[0, 7, -1]] :=
  dispatch_callback_once id (KillAllGpgComponents id)
    (by simp [dispatch_operations]) "gpgconf" (by decide)
    [⟨0, "a", "/a"⟩, ⟨1, "b", "/b"⟩, ⟨2, "c", "/c"⟩] (by decide) [0, 7, -1] rfl [2, 0, 1]
    (by decide)

/-! ### No key database -/

/-- C3, as stated, fails: with a resolved path, no key database and a non-null
callback, none of the five dispatch operations issues a command, and none invokes
the callback, so the callback does not receive the code `0`. -/
theorem dispatch_empty_no_success_call :
    (ClearGpgPasswordCache id "gpgconf" [] true).issued = [] ∧
    (ClearGpgPasswordCache id "gpgconf" [] true).callbacks [[]] ≠ [0] ∧
    (ReloadGpgComponents id "gpgconf" [] true).callbacks [[]] ≠ [0] ∧
    (KillAllGpgComponents id "gpgconf" [] true).callbacks [[]] ≠ [0] ∧
    (ResetConfigures id "gpgconf" [] true).callbacks [[]] ≠ [0] ∧
    (LaunchGpgComponents id "gpgconf" [] true).callbacks [[]] ≠ [0] := by
  decide

/-- C3, amended: with a resolved path and no key database, each of the five
dispatch operations issues no command and leaves no completion lambda behind, and
the callback is invoked neither by the operation itself nor later, whatever
completions are reported. -/
theorem dispatch_empty_never_calls (home : String → String)
    (op : String → List KeyDatabaseInfo → Bool → Outcome) (hop : op ∈ dispatch_operations home)
    (gpgconf_path : String) (hpath : gpgconf_path.isEmpty = false) (cb : Bool)
    (schedules : List (List (Nat × Int))) :
    (op gpgconf_path [] cb).issued = [] ∧
    (op gpgconf_path [] cb).loops.map (fun l => l.executions.length) = [0] ∧
    (op gpgconf_path [] cb).callbacks schedules = [] := by
  obtain ⟨mk, hmk⟩ := dispatch_shape home op hop gpgconf_path hpath [] cb
  rw [hmk]
  refine ⟨rfl, rfl, ?_⟩
  cases schedules with
  | nil => rfl
  | cons sch rest =>
    have hnone : ∀ (sch : List (Nat × Int)) (s : LoopState), complete [] sch s = s := by
      intro sch
      induction sch with
      | nil => intro s; rfl
      | cons ev more ih =>
        intro s
        simp [complete]
    simp [Outcome.callbacks, DispatchLoop.after, for_key_dbs, hnone]

/-- Witness of the amended C3: `ReloadGpgComponents` without key database, with a
schedule that reports a completion all the same. -/
theorem dispatch_empty_never_calls_witness :
    (ReloadGpgComponents id "gpgconf" [] true).issued = [] ∧
    (ReloadGpgComponents id "gpgconf" [] true).loops.map (fun l => l.executions.length) = [0] ∧
    (ReloadGpgComponents id "gpgconf" [] true).callbacks [[(0, 0)]] = [] :=
  dispatch_empty_never_calls id (ReloadGpgComponents id)
    (by simp [dispatch_operations]) "gpgconf" (by decide) true [[(0, 0)]]

/-! ### Unresolved gpgconf path -/

/-- C4: with an empty gpgconf path each of the six operations makes no
enumeration and no dispatch loop (hence issues no command), and invokes a non-null
callback exactly once, with `-1`; with a null callback it invokes nothing.  No later
completion can add an invocation. -/
theorem fail_fast_on_empty_path (home : String → String)
    (key_dbs launch_dbs : List KeyDatabaseInfo) (cb : Bool)
    (schedules : List (List (Nat × Int))) :
    fails_fast cb (ClearGpgPasswordCache home "" key_dbs cb) schedules ∧
    fails_fast cb (ReloadGpgComponents home "" key_dbs cb) schedules ∧
    fails_fast cb (KillAllGpgComponents home "" key_dbs cb) schedules ∧
    fails_fast cb (RestartGpgComponents home "" key_dbs launch_dbs cb) schedules ∧
    fails_fast cb (ResetConfigures home "" key_dbs cb) schedules ∧
    fails_fast cb (LaunchGpgComponents home "" key_dbs cb) schedules := by
  have hempty : ("" : String).isEmpty = true := by decide
  have habort : fails_fast cb (abort cb) schedules := by
    cases cb <;> simp [fails_fast, abort, Outcome.issued, Outcome.callbacks]
  refine ⟨?_, ?_, ?_, ?_, ?_, ?_⟩
  · simpa only [ClearGpgPasswordCache, hempty, if_true] using habort
  · simpa only [ReloadGpgComponents, hempty, if_true] using habort
  · simpa only [KillAllGpgComponents, hempty, if_true] using habort
  · simpa only [RestartGpgComponents, hempty, if_true] using habort
  · simpa only [ResetConfigures, hempty, if_true] using habort
  · simpa only [LaunchGpgComponents, hempty, if_true] using habort

/-! ### Restart -/

theorem complete_cb_calls_of_null (mk : KeyDatabaseInfo → ExecuteContext) (N : Int)
    (dbs : List KeyDatabaseInfo) (sched : List (Nat × Int)) (s : LoopState) :
    (complete (for_key_dbs (fun i db => { ctx := mk db, exit_func := on_exit N false i }) 0 dbs)
        sched s).cb_calls = s.cb_calls := by
  induction sched generalizing s with
  | nil => rfl
  | cons ev rest ih =>
    simp only [complete, List.foldl_cons] at ih ⊢
    rw [for_key_dbs_get?]
    cases hget : dbs.get? ev.1 with
    | none => simpa using ih s
    | some db =>
      simp only [Option.map_some']
      rw [ih]
      simp [on_exit]

theorem kill_unfold (home : String → String) (gpgconf_path : String)
    (hpath : gpgconf_path.isEmpty = false) (key_dbs : List KeyDatabaseInfo) (cb : Bool) :
    KillAllGpgComponents home gpgconf_path key_dbs cb =
      { cb_calls := [], enumerations := 1,
        loops := [{
          total_tasks := (key_dbs.length : Int), cb := cb,
          init := { completed_tasks := 0, results := List.replicate key_dbs.length 0,
                    cb_calls := [] },
          executions := for_key_dbs (fun i db =>
            { ctx := { cmd := gpgconf_path,
                       arguments := ["--homedir", home db.path, "--kill", "all"] },
              exit_func := on_exit (key_dbs.length : Int) cb i }) 0 key_dbs }] } := by
  simp only [KillAllGpgComponents, hpath]
  rfl

theorem launch_unfold (home : String → String) (gpgconf_path : String)
    (hpath : gpgconf_path.isEmpty = false) (key_dbs : List KeyDatabaseInfo) (cb : Bool) :
    LaunchGpgComponents home gpgconf_path key_dbs cb =
      { cb_calls := [], enumerations := 1,
        loops := [{
          total_tasks := (key_dbs.length : Int), cb := cb,
          init := { completed_tasks := 0, results := List.replicate key_dbs.length 0,
                    cb_calls := [] },
          executions := for_key_dbs (fun i db =>
            { ctx := { cmd := gpgconf_path,
                       arguments := ["--homedir", home db.path, "--launch", "all"] },
              exit_func := on_exit (key_dbs.length : Int) cb i }) 0 key_dbs }] } := by
  simp only [LaunchGpgComponents, hpath]
  rfl

theorem restart_unfold (home : String → String) (gpgconf_path : String)
    (hpath : gpgconf_path.isEmpty = false) (kill_dbs launch_dbs : List KeyDatabaseInfo)
    (cb : Bool) :
    RestartGpgComponents home gpgconf_path kill_dbs launch_dbs cb =
      (KillAllGpgComponents home gpgconf_path kill_dbs false).andThen
        (LaunchGpgComponents home gpgconf_path launch_dbs cb) := by
  simp only [RestartGpgComponents, hpath]
  rfl

/-- C10: with a resolved gpgconf path `RestartGpgComponents` issues the `--kill`
command of every key database and then the `--launch` command of every key
database, the issue not depending on any exit code; the completions of the kill
commands never reach a callback; and the invocations of the caller's callback are
those `LaunchGpgComponents` makes for the same launch completions, the code being
the aggregate of the launch exit codes alone. -/
theorem restart_kill_then_launch (home : String → String)
    (gpgconf_path : String) (hpath : gpgconf_path.isEmpty = false)
    (kill_dbs launch_dbs : List KeyDatabaseInfo) (cb : Bool)
    (kill_schedule launch_schedule : List (Nat × Int)) :
    (RestartGpgComponents home gpgconf_path kill_dbs launch_dbs cb).issued
      = kill_dbs.map (fun key_db =>
          { cmd := gpgconf_path,
            arguments := ["--homedir", home key_db.path, "--kill", "all"] })
        ++ launch_dbs.map (fun key_db =>
          { cmd := gpgconf_path,
            arguments := ["--homedir", home key_db.path, "--launch", "all"] }) ∧
    (KillAllGpgComponents home gpgconf_path kill_dbs false).callbacks [kill_schedule] = [] ∧
    (RestartGpgComponents home gpgconf_path kill_dbs launch_dbs cb).callbacks
        [kill_schedule, launch_schedule]
      = (LaunchGpgComponents home gpgconf_path launch_dbs cb).callbacks [launch_schedule] ∧
    (∀ (codes : List Int) (order : List Nat), 1 ≤ launch_dbs.length →
      codes.length = launch_dbs.length → order.Perm (List.range launch_dbs.length) →
      (RestartGpgComponents home gpgconf_path kill_dbs launch_dbs true).callbacks
          [kill_schedule, schedule_of codes order]
        = [if ∀ c ∈ codes, 0 ≤ c then 0 else -1]) := by
  have hkill : (KillAllGpgComponents home gpgconf_path kill_dbs false).callbacks [kill_schedule]
      = [] := by
    rw [kill_unfold home gpgconf_path hpath]
    simp only [Outcome.callbacks, DispatchLoop.after,
      List.zipWith_cons_cons, List.zipWith_nil_right, List.flatten_cons, List.flatten_nil,
      List.nil_append, List.append_nil]
    exact complete_cb_calls_of_null _ _ _ _ _
  have hrestart : ∀ (c : Bool) (ls : List (Nat × Int)),
      (RestartGpgComponents home gpgconf_path kill_dbs launch_dbs c).callbacks [kill_schedule, ls]
        = (LaunchGpgComponents home gpgconf_path launch_dbs c).callbacks [ls] := by
    intro c ls
    rw [restart_unfold home gpgconf_path hpath, kill_unfold home gpgconf_path hpath,
      launch_unfold home gpgconf_path hpath]
    simp only [Outcome.andThen, Outcome.callbacks, DispatchLoop.after, List.zipWith_cons_cons,
      List.zipWith_nil_right, List.flatten_cons, List.flatten_nil, List.nil_append,
      List.append_nil, List.singleton_append, List.cons_append]
    rw [complete_cb_calls_of_null]
    rfl
  refine ⟨?_, hkill, hrestart cb launch_schedule, ?_⟩
  · rw [restart_unfold home gpgconf_path hpath, kill_unfold home gpgconf_path hpath,
      launch_unfold home gpgconf_path hpath]
    simp only [Outcome.andThen, Outcome.issued, List.map_cons, List.map_nil, List.flatten_cons,
      List.flatten_nil, List.append_nil, List.singleton_append, List.cons_append,
      List.nil_append]
    rw [for_key_dbs_ctx, for_key_dbs_ctx]
  · intro codes order hN hcodes horder
    rw [hrestart true (schedule_of codes order),
      callbacks_of_perm home (LaunchGpgComponents home) (by simp [dispatch_operations])
        gpgconf_path hpath launch_dbs hN true codes hcodes order horder, aggregate_eq]
    rfl

/-- Witness of C10: two key databases, both kill commands failing. -/
theorem restart_kill_then_launch_witness :
    (RestartGpgComponents id "gpgconf" [⟨0, "a", "/a"⟩, ⟨1, "b", "/b"⟩]
        [⟨0, "a", "/a"⟩, ⟨1, "b", "/b"⟩] true).issued
      = [⟨"gpgconf", ["--homedir", "/a", "--kill", "all"]⟩,
         ⟨"gpgconf", ["--homedir", "/b", "--kill", "all"]⟩,
         ⟨"gpgconf", ["--homedir", "/a", "--launch", "all"]⟩,
         ⟨"gpgconf", ["--homedir", "/b", "--launch", "all"]⟩] ∧
    (RestartGpgComponents id "gpgconf" [⟨0, "a", "/a"⟩, ⟨1, "b", "/b"⟩]
        [⟨0, "a", "/a"⟩, ⟨1, "b", "/b"⟩] true).callbacks
          [[(0, -1), (1, -1)], schedule_of [0, 0] [1, 0]] = [0] := by
  have h := restart_kill_then_launch id "gpgconf" (by decide)
    [⟨0, "a", "/a"⟩, ⟨1, "b", "/b"⟩] [⟨0, "a", "/a"⟩, ⟨1, "b", "/b"⟩] true
    [(0, -1), (1, -1)] (schedule_of [0, 0] [1, 0])
  refine ⟨by simpa using h.1, ?_⟩
  simpa using h.2.2.2 [0, 0] [1, 0] (by decide) rfl (by decide)

/-! ### The transition tables -/

theorem trust_unhandled (state : AutomatonState) (status args : String)
    (h : (state, status, args) ∉ SetOwnerTrustLevel.transitions.map Prod.fst) :
    SetOwnerTrustLevel.next_state_handler state status args = AS_ERROR := by
  simp only [SetOwnerTrustLevel.transitions, List.map_cons, List.map_nil, List.mem_cons,
    Prod.mk.injEq, List.not_mem_nil, or_false, not_or, not_and] at h
  cases state <;> simp only [SetOwnerTrustLevel.next_state_handler] <;> split_ifs <;> simp_all

theorem delete_unhandled (state : AutomatonState) (status args : String)
    (h : (state, status, args) ∉ DeleteSubkey.transitions.map Prod.fst) :
    DeleteSubkey.next_state_handler state status args = AS_ERROR := by
  simp only [DeleteSubkey.transitions, List.map_cons, List.map_nil, List.mem_cons,
    Prod.mk.injEq, List.not_mem_nil, or_false, not_or, not_and] at h
  cases state <;> simp only [DeleteSubkey.next_state_handler] <;> split_ifs <;> simp_all

theorem revoke_unhandled (state : AutomatonState) (status args : String)
    (h : (state, status, args) ∉ RevokeSubkey.transitions.map Prod.fst) :
    RevokeSubkey.next_state_handler state status args = AS_ERROR := by
  simp only [RevokeSubkey.transitions, List.map_cons, List.map_nil, List.mem_cons,
    Prod.mk.injEq, List.not_mem_nil, or_false, not_or, not_and] at h
  cases state <;> simp only [RevokeSubkey.next_state_handler] <;> split_ifs <;> simp_all

/-- C5: each of the three transition tables is a total function, and every
`(state, keyword, argument)` that is not one of the triples the table handles
explicitly is sent to `AS_ERROR`, whatever the state (also one without a case,
such as `AS_SAVE`) and whatever the argument string (also the empty one); the
triples handled explicitly are sent to their successor, which is not
`AS_ERROR`. -/
theorem unhandled_is_error (state : AutomatonState) (status args : String) :
    ((state, status, args) ∉ SetOwnerTrustLevel.transitions.map Prod.fst →
      SetOwnerTrustLevel.next_state_handler state status args = AS_ERROR) ∧
    ((state, status, args) ∉ DeleteSubkey.transitions.map Prod.fst →
      DeleteSubkey.next_state_handler state status args = AS_ERROR) ∧
    ((state, status, args) ∉ RevokeSubkey.transitions.map Prod.fst →
      RevokeSubkey.next_state_handler state status args = AS_ERROR) ∧
    (∀ e ∈ SetOwnerTrustLevel.transitions,
      SetOwnerTrustLevel.next_state_handler e.1.1 e.1.2.1 e.1.2.2 = e.2 ∧ e.2 ≠ AS_ERROR) ∧
    (∀ e ∈ DeleteSubkey.transitions,
      DeleteSubkey.next_state_handler e.1.1 e.1.2.1 e.1.2.2 = e.2 ∧ e.2 ≠ AS_ERROR) ∧
    (∀ e ∈ RevokeSubkey.transitions,
      RevokeSubkey.next_state_handler e.1.1 e.1.2.1 e.1.2.2 = e.2 ∧ e.2 ≠ AS_ERROR) :=
  ⟨trust_unhandled state status args, delete_unhandled state status args,
    revoke_unhandled state status args, by decide, by decide, by decide⟩

/-- Witness of C5: the state `AS_SAVE`, for which no table has a case, and the
state `AS_START` with an empty argument string. -/
theorem unhandled_is_error_witness :
    SetOwnerTrustLevel.next_state_handler AS_SAVE "GET_LINE" "keyedit.prompt" = AS_ERROR ∧
    DeleteSubkey.next_state_handler AS_START "GET_LINE" "" = AS_ERROR ∧
    RevokeSubkey.next_state_handler AS_REASON_TEXT "GET_BOOL" "keyedit.prompt extra" = AS_ERROR :=
  ⟨(unhandled_is_error AS_SAVE "GET_LINE" "keyedit.prompt").1 (by decide),
   (unhandled_is_error AS_START "GET_LINE" "").2.1 (by decide),
   (unhandled_is_error AS_REASON_TEXT "GET_BOOL" "keyedit.prompt extra").2.2.1 (by decide)⟩

/-! ### Runs of `SetOwnerTrustLevel` -/

/-- C6: for every trust level, the run of the tables of `SetOwnerTrustLevel` from
`AS_START` on the expected events enters `AS_COMMAND`, `AS_VALUE`, `AS_QUIT`,
`AS_SAVE`, sends "trust", the decimal rendering of the level, "quit", "Y", never
enters `AS_ERROR`, ends with the success flag set, and `DoInteract` returns true
when the process exits without error. -/
theorem trust_expected_run (trust_level : Int) :
    (interact SetOwnerTrustLevel.next_state_handler
        (stateless (SetOwnerTrustLevel.action_handler trust_level)) ()
        SetOwnerTrustLevel.expected_events).turns
      = [{ state := AS_COMMAND, text := "trust", success := false },
         { state := AS_VALUE, text := QString_number trust_level, success := true },
         { state := AS_QUIT, text := "quit", success := true },
         { state := AS_SAVE, text := "Y", success := true }] ∧
    (interact SetOwnerTrustLevel.next_state_handler
        (stateless (SetOwnerTrustLevel.action_handler trust_level)) ()
        SetOwnerTrustLevel.expected_events).handler.success = true ∧
    AS_ERROR ∉ (interact SetOwnerTrustLevel.next_state_handler
        (stateless (SetOwnerTrustLevel.action_handler trust_level)) ()
        SetOwnerTrustLevel.expected_events).turns.map (fun t => t.state) ∧
    DoInteract SetOwnerTrustLevel.next_state_handler
        (stateless (SetOwnerTrustLevel.action_handler trust_level)) ()
        SetOwnerTrustLevel.expected_events true = true := by
  refine ⟨rfl, rfl, ?_, rfl⟩
  have h : (interact SetOwnerTrustLevel.next_state_handler
        (stateless (SetOwnerTrustLevel.action_handler trust_level)) ()
        SetOwnerTrustLevel.expected_events).turns.map (fun t => t.state)
      = [AS_COMMAND, AS_VALUE, AS_QUIT, AS_SAVE] := rfl
  rw [h]
  decide

/-- C7, as stated, fails: for the trust level 3, the run that reaches `AS_VALUE` by
the expected events and then receives `GET_LINE bogus`, which `AS_VALUE` does not
handle, ends in `AS_ERROR` with the success flag set, not clear. -/
theorem trust_error_after_value_flag_set :
    (interact SetOwnerTrustLevel.next_state_handler
        (stateless (SetOwnerTrustLevel.action_handler 3)) ()
        [("GET_LINE", "keyedit.prompt"), ("GET_LINE", "edit_ownertrust.value"),
         ("GET_LINE", "bogus")]).state = AS_ERROR ∧
    ¬ (interact SetOwnerTrustLevel.next_state_handler
        (stateless (SetOwnerTrustLevel.action_handler 3)) ()
        [("GET_LINE", "keyedit.prompt"), ("GET_LINE", "edit_ownertrust.value"),
         ("GET_LINE", "bogus")]).handler.success = false := by
  decide

/-- C7, amended: a run of `SetOwnerTrustLevel` that reaches `AS_VALUE` by the
expected events and then receives a status event `AS_VALUE` does not handle ends in
`AS_ERROR` with the success flag still set: the action at `AS_VALUE` set it and
the action at `AS_ERROR` sends the empty text and leaves it.  `DoInteract` returns
false all the same, because the run ended in `AS_ERROR`. -/
theorem trust_error_after_value (trust_level : Int) (status args : String)
    (h1 : ¬ (status = "GET_LINE" ∧ args = "keyedit.prompt"))
    (h2 : ¬ (status = "GET_BOOL" ∧ args = "edit_ownertrust.set_ultimate.okay"))
    (process_ok : Bool) :
    (interact SetOwnerTrustLevel.next_state_handler
        (stateless (SetOwnerTrustLevel.action_handler trust_level)) ()
        [("GET_LINE", "keyedit.prompt"), ("GET_LINE", "edit_ownertrust.value"),
         (status, args)]).turns
      = [{ state := AS_COMMAND, text := "trust", success := false },
         { state := AS_VALUE, text := QString_number trust_level, success := true },
         { state := AS_ERROR, text := "", success := true }] ∧
    (interact SetOwnerTrustLevel.next_state_handler
        (stateless (SetOwnerTrustLevel.action_handler trust_level)) ()
        [("GET_LINE", "keyedit.prompt"), ("GET_LINE", "edit_ownertrust.value"),
         (status, args)]).state = AS_ERROR ∧
    (interact SetOwnerTrustLevel.next_state_handler
        (stateless (SetOwnerTrustLevel.action_handler trust_level)) ()
        [("GET_LINE", "keyedit.prompt"), ("GET_LINE", "edit_ownertrust.value"),
         (status, args)]).handler.success = true ∧
    DoInteract SetOwnerTrustLevel.next_state_handler
        (stateless (SetOwnerTrustLevel.action_handler trust_level)) ()
        [("GET_LINE", "keyedit.prompt"), ("GET_LINE", "edit_ownertrust.value"),
         (status, args)] process_ok = false := by
  have hnext : SetOwnerTrustLevel.next_state_handler AS_VALUE status args = AS_ERROR := by
    apply trust_unhandled
    simp only [SetOwnerTrustLevel.transitions, List.map_cons, List.map_nil, List.mem_cons,
      Prod.mk.injEq, List.not_mem_nil, or_false, not_or, not_and]
    simp_all
  have hrun : interact SetOwnerTrustLevel.next_state_handler
        (stateless (SetOwnerTrustLevel.action_handler trust_level)) ()
        [("GET_LINE", "keyedit.prompt"), ("GET_LINE", "edit_ownertrust.value"), (status, args)]
      = { state := AS_ERROR, handler := { success := true }, cap := (),
          turns := [{ state := AS_COMMAND, text := "trust", success := false },
            { state := AS_VALUE, text := QString_number trust_level, success := true },
            { state := AS_ERROR, text := "", success := true }] } := by
    have h2steps : interact SetOwnerTrustLevel.next_state_handler
        (stateless (SetOwnerTrustLevel.action_handler trust_level)) ()
        [("GET_LINE", "keyedit.prompt"), ("GET_LINE", "edit_ownertrust.value"), (status, args)]
        = interact_step SetOwnerTrustLevel.next_state_handler
            (stateless (SetOwnerTrustLevel.action_handler trust_level))
            { state := AS_VALUE, handler := { success := true }, cap := (),
              turns := [{ state := AS_COMMAND, text := "trust", success := false },
                { state := AS_VALUE, text := QString_number trust_level, success := true }] }
            (status, args) := rfl
    rw [h2steps]
    simp only [interact_step, hnext]
    rfl
  refine ⟨by rw [hrun], by rw [hrun], by rw [hrun], ?_⟩
  simp only [DoInteract, hrun]
  simp

/-- Witness of the amended C7: trust level 3, the unexpected event `GET_LINE bogus`. -/
theorem trust_error_after_value_witness :
    DoInteract SetOwnerTrustLevel.next_state_handler
        (stateless (SetOwnerTrustLevel.action_handler 3)) ()
        [("GET_LINE", "keyedit.prompt"), ("GET_LINE", "edit_ownertrust.value"),
         ("GET_LINE", "bogus")] true = false :=
  (trust_error_after_value 3 "GET_LINE" "bogus" (by decide) (by decide) true).2.2.2

/-! ### Success after `AS_ERROR` -/

theorem interact_from_error {κ : Type} (next : AutomatonState → String → String → AutomatonState)
    (action : κ → AutomatonHandelStruct → AutomatonState → String × AutomatonHandelStruct × κ)
    (s : Session κ) (hs : s.state = AS_ERROR) (events : List (String × String)) :
    interact_from next action s events = s := by
  cases events with
  | nil => rfl
  | cons event rest => simp only [interact_from, hs, if_true]

theorem interact_from_cons {κ : Type} (next : AutomatonState → String → String → AutomatonState)
    (action : κ → AutomatonHandelStruct → AutomatonState → String × AutomatonHandelStruct × κ)
    (s : Session κ) (hs : s.state ≠ AS_ERROR) (event : String × String)
    (rest : List (String × String)) :
    interact_from next action s (event :: rest)
      = interact_from next action (interact_step next action s event) rest := by
  simp only [interact_from, hs, if_false]

theorem interact_from_append {κ : Type}
    (next : AutomatonState → String → String → AutomatonState)
    (action : κ → AutomatonHandelStruct → AutomatonState → String × AutomatonHandelStruct × κ)
    (pre post : List (String × String)) (s : Session κ) :
    interact_from next action s (pre ++ post)
      = interact_from next action (interact_from next action s pre) post := by
  induction pre generalizing s with
  | nil => rfl
  | cons event rest ih =>
    by_cases hs : s.state = AS_ERROR
    · rw [interact_from_error next action s hs, interact_from_error next action s hs,
        interact_from_error next action s hs]
    · rw [List.cons_append, interact_from_cons next action s hs,
        interact_from_cons next action s hs, ih]

theorem interact_append {κ : Type} (next : AutomatonState → String → String → AutomatonState)
    (action : κ → AutomatonHandelStruct → AutomatonState → String × AutomatonHandelStruct × κ)
    (cap : κ) (pre post : List (String × String)) :
    interact next action cap (pre ++ post)
      = interact_from next action (interact next action cap pre) post := by
  simp only [interact, interact_from_append]

theorem error_never_of_tables {κ : Type}
    (next : AutomatonState → String → String → AutomatonState)
    (action : κ → AutomatonHandelStruct → AutomatonState → String × AutomatonHandelStruct × κ)
    (hkeep : ∀ c handler,
      (action c handler AS_ERROR).1 = "" ∧ (action c handler AS_ERROR).2.1 = handler)
    (cap : κ) : error_never_sets_success next action cap := by
  refine ⟨hkeep, ?_, ?_⟩
  · intro events event herr
    rw [interact_append] at herr ⊢
    by_cases hs : (interact next action cap events).state = AS_ERROR
    · rw [interact_from_error next action _ hs]
    · rw [interact_from_cons next action _ hs] at herr ⊢
      simp only [interact_from, interact_step] at herr ⊢
      rw [herr, (hkeep _ _).2]
  · intro pre post herr
    rw [interact_append, interact_from_error next action _ herr]

/-- C8: for each of the three operations and every sequence of status events, the
action at `AS_ERROR` sends the empty text and leaves the success flag as it was, so
that the turn entering `AS_ERROR` never sets success; and the run ends with that
turn, so that no later action invocation of the run sets the flag. -/
theorem error_turn_never_sets_success (trust_level subkey_index reason_code : Int)
    (reason_text_lines : List String) :
    error_never_sets_success SetOwnerTrustLevel.next_state_handler
      (stateless (SetOwnerTrustLevel.action_handler trust_level)) () ∧
    error_never_sets_success DeleteSubkey.next_state_handler
      (stateless (DeleteSubkey.action_handler subkey_index)) () ∧
    error_never_sets_success RevokeSubkey.next_state_handler
      (RevokeSubkey.action_handler subkey_index reason_code) reason_text_lines := by
  refine ⟨?_, ?_, ?_⟩
  · exact error_never_of_tables _ _ (fun _ _ => ⟨rfl, rfl⟩) ()
  · exact error_never_of_tables _ _ (fun _ _ => ⟨rfl, rfl⟩) ()
  · exact error_never_of_tables _ _ (fun _ _ => ⟨rfl, rfl⟩) reason_text_lines

/-- Witness of C8: `DeleteSubkey`, an unexpected first event, then the forced quit
and the confirmation of the save: the run has ended at `AS_ERROR`, with the success
flag clear, and the two later events are not taken. -/
theorem error_turn_never_sets_success_witness :
    (interact DeleteSubkey.next_state_handler (stateless (DeleteSubkey.action_handler 1)) ()
        [("GET_LINE", "bogus")]).state = AS_ERROR ∧
    interact DeleteSubkey.next_state_handler (stateless (DeleteSubkey.action_handler 1)) ()
        ([("GET_LINE", "bogus")] ++ [("GET_LINE", "keyedit.prompt"),
          ("GET_BOOL", "keyedit.save.okay")])
      = interact DeleteSubkey.next_state_handler (stateless (DeleteSubkey.action_handler 1)) ()
        [("GET_LINE", "bogus")] ∧
    (interact DeleteSubkey.next_state_handler (stateless (DeleteSubkey.action_handler 1)) ()
        [("GET_LINE", "bogus")]).turns
      = [{ state := AS_ERROR, text := "", success := false }] :=
  ⟨by decide,
   (error_turn_never_sets_success 3 1 0 []).2.1.2.2 [("GET_LINE", "bogus")]
      [("GET_LINE", "keyedit.prompt"), ("GET_BOOL", "keyedit.save.okay")] (by decide),
   by decide⟩

/-! ### The queue of reason text lines -/

/-- C9: the action of `RevokeSubkey` at `AS_REASON_TEXT` returns the first line of
the queue and removes it, and returns the empty string on an empty queue, which it
leaves empty; hence for a queue `[l1, ..., ln]` the first `m` invocations send the
first `m` lines when `m <= n`, and `l1, ..., ln` followed by `m - n` empty strings
when `m > n`, and leave the lines after the `m`-th in the queue; for
`["line1", "line2"]` three invocations send "line1", "line2", "". -/
theorem reason_text_drain (subkey_index reason_code : Int) (reason_text_lines : List String)
    (handler : AutomatonHandelStruct) (m : Nat) :
    (∀ first rest, RevokeSubkey.action_handler subkey_index reason_code (first :: rest) handler
        AS_REASON_TEXT = (first, handler, rest)) ∧
    RevokeSubkey.action_handler subkey_index reason_code [] handler AS_REASON_TEXT
      = ("", handler, []) ∧
    (reason_text_entries subkey_index reason_code m reason_text_lines handler).1
      = reason_text_lines.take m ++ List.replicate (m - reason_text_lines.length) "" ∧
    (reason_text_entries subkey_index reason_code m reason_text_lines handler).2
      = reason_text_lines.drop m ∧
    reason_text_entries subkey_index reason_code 3 ["line1", "line2"] handler
      = (["line1", "line2", ""], []) := by
  refine ⟨fun _ _ => rfl, rfl, ?_, ?_, rfl⟩
  · induction m generalizing reason_text_lines with
    | zero => simp [reason_text_entries]
    | succ n ih =>
      cases reason_text_lines with
      | nil =>
        have h := ih []
        simp only [List.take_nil, List.length_nil, Nat.sub_zero, List.nil_append] at h
        simp only [reason_text_entries, RevokeSubkey.action_handler, h, List.take_nil,
          List.length_nil, Nat.sub_zero, List.nil_append, List.replicate_succ]
      | cons l rest =>
        have h := ih rest
        simp only [reason_text_entries, RevokeSubkey.action_handler, h, List.take_succ_cons,
          List.length_cons, Nat.add_sub_add_right, List.cons_append]
  · induction m generalizing reason_text_lines with
    | zero => simp [reason_text_entries]
    | succ n ih =>
      cases reason_text_lines with
      | nil =>
        have h := ih []
        simp only [List.drop_nil] at h
        simp only [reason_text_entries, RevokeSubkey.action_handler, h, List.drop_nil]
      | cons l rest =>
        have h := ih rest
        simp only [reason_text_entries, RevokeSubkey.action_handler, h, List.drop_succ_cons]

/-! ### Result slots and issued commands -/

theorem callbacks_perm_invariant (home : String → String)
    (op : String → List KeyDatabaseInfo → Bool → Outcome) (hop : op ∈ dispatch_operations home)
    (gpgconf_path : String) (hpath : gpgconf_path.isEmpty = false)
    (key_dbs : List KeyDatabaseInfo) (cb : Bool)
    (codes : List Int) (hcodes : codes.length = key_dbs.length)
    (order : List Nat) (horder : order.Perm (List.range key_dbs.length)) :
    (op gpgconf_path key_dbs cb).callbacks [schedule_of codes order]
      = if key_dbs ≠ [] ∧ cb = true then [aggregate codes] else [] := by
  obtain ⟨hnd, hlt, hlen, -⟩ := perm_range_facts _ order horder
  have hres := results_all_written codes order (by rw [hcodes]; exact horder)
  rw [hcodes] at hres
  rw [(callbacks_single home op hop gpgconf_path hpath key_dbs cb codes _ hnd hlt).1, hres]
  have hiff : order ≠ [] ↔ key_dbs ≠ [] := by
    rw [Ne, Ne, ← List.length_eq_zero, ← List.length_eq_zero (l := key_dbs), hlen]
  simp only [hiff, hlen, true_and]

/-- C11: in every dispatch operation the vector `results` has exactly `N` slots and
there are `N` completion lambdas when the operation has issued its commands; the
lambda of the channel at position `i` has `i < N` and writes slot `i` of `results`
and no other slot; hence, for every completion order, slot `i` holds the exit code
of channel `i` when all have completed, and the invocations of the callback are
the same for any two completion orders. -/
theorem slots_by_position (home : String → String)
    (op : String → List KeyDatabaseInfo → Bool → Outcome) (hop : op ∈ dispatch_operations home)
    (gpgconf_path : String) (hpath : gpgconf_path.isEmpty = false)
    (key_dbs : List KeyDatabaseInfo) (cb : Bool) :
    (op gpgconf_path key_dbs cb).loops.map
        (fun l => (l.init.results.length, l.executions.length))
      = [(key_dbs.length, key_dbs.length)] ∧
    (∀ l ∈ (op gpgconf_path key_dbs cb).loops, ∀ (i : Nat) (e : Execution),
      l.executions.get? i = some e →
        i < key_dbs.length ∧
        ∀ (exit_code : Int) (s : LoopState),
          (e.exit_func exit_code s).results = s.results.set i exit_code ∧
          (e.exit_func exit_code s).results.length = s.results.length ∧
          (∀ j, j ≠ i → (e.exit_func exit_code s).results.get? j = s.results.get? j) ∧
          (i < s.results.length → (e.exit_func exit_code s).results.get? i = some exit_code)) ∧
    (∀ (codes : List Int) (order : List Nat), codes.length = key_dbs.length →
      order.Perm (List.range key_dbs.length) →
      (op gpgconf_path key_dbs cb).final_results [schedule_of codes order] = [codes]) ∧
    (∀ (codes : List Int) (order₁ order₂ : List Nat), codes.length = key_dbs.length →
      order₁.Perm (List.range key_dbs.length) → order₂.Perm (List.range key_dbs.length) →
      (op gpgconf_path key_dbs cb).callbacks [schedule_of codes order₁]
        = (op gpgconf_path key_dbs cb).callbacks [schedule_of codes order₂]) := by
  obtain ⟨mk, hmk⟩ := dispatch_shape home op hop gpgconf_path hpath key_dbs cb
  refine ⟨?_, ?_, ?_, ?_⟩
  · rw [hmk]
    simp [for_key_dbs_length]
  · rw [hmk]
    intro l hl i e hget
    simp only [List.mem_singleton] at hl
    subst hl
    rw [for_key_dbs_get?] at hget
    cases hdb : key_dbs.get? i with
    | none =>
      rw [hdb] at hget
      exact Option.noConfusion hget
    | some db =>
      have hi : i < key_dbs.length := by
        by_contra hge
        have := List.get?_eq_none.mpr (Nat.le_of_not_lt hge)
        rw [this] at hdb
        exact Option.noConfusion hdb
      rw [hdb] at hget
      simp only [Option.map_some', Option.some.injEq, Nat.zero_add] at hget
      subst hget
      refine ⟨hi, ?_⟩
      intro exit_code s
      have hres : (on_exit (key_dbs.length : Int) cb i exit_code s).results
          = s.results.set i exit_code := by
        simp only [on_exit]
        split <;> rfl
      simp only [hres]
      refine ⟨trivial, List.length_set .., ?_, ?_⟩
      · intro j hj
        simp only [List.get?_eq_getElem?]
        exact List.getElem?_set_ne (fun h => hj h.symm)
      · intro hlt
        simp only [List.get?_eq_getElem?]
        rw [List.getElem?_set_self hlt]
  · intro codes order hcodes horder
    obtain ⟨hnd, hlt, -, -⟩ := perm_range_facts _ order horder
    have hres := results_all_written codes order (by rw [hcodes]; exact horder)
    rw [hcodes] at hres
    rw [(callbacks_single home op hop gpgconf_path hpath key_dbs cb codes _ hnd hlt).2, hres]
  · intro codes order₁ order₂ hcodes h₁ h₂
    rw [callbacks_perm_invariant home op hop gpgconf_path hpath key_dbs cb codes hcodes order₁ h₁,
      callbacks_perm_invariant home op hop gpgconf_path hpath key_dbs cb codes hcodes order₂ h₂]

/-- Witness of C11: `ResetConfigures` on three key databases; the completion orders
2, 0, 1 and 0, 1, 2 give the same single invocation. -/
theorem slots_by_position_witness :
    (ResetConfigures id "gpgconf"
        [⟨0, "a", "/a"⟩, ⟨1, "b", "/b"⟩, ⟨2, "c", "/c"⟩] true).final_results
          [schedule_of [0, -1, 5] [2, 0, 1]] = [[0, -1, 5]] ∧
    (ResetConfigures id "gpgconf"
        [⟨0, "a", "/a"⟩, ⟨1, "b", "/b"⟩, ⟨2, "c", "/c"⟩] true).callbacks
          [schedule_of [0, -1, 5] [2, 0, 1]]
      = (ResetConfigures id "gpgconf"
        [⟨0, "a", "/a"⟩, ⟨1, "b", "/b"⟩, ⟨2, "c", "/c"⟩] true).callbacks
          [schedule_of [0, -1, 5] [0, 1, 2]] :=
  ⟨(slots_by_position id (ResetConfigures id) (by simp [dispatch_operations]) "gpgconf"
      (by decide) [⟨0, "a", "/a"⟩, ⟨1, "b", "/b"⟩, ⟨2, "c", "/c"⟩] true).2.2.1
      [0, -1, 5] [2, 0, 1] rfl (by decide),
   (slots_by_position id (ResetConfigures id) (by simp [dispatch_operations]) "gpgconf"
      (by decide) [⟨0, "a", "/a"⟩, ⟨1, "b", "/b"⟩, ⟨2, "c", "/c"⟩] true).2.2.2
      [0, -1, 5] [2, 0, 1] [0, 1, 2] rfl (by decide) (by decide)⟩

theorem issued_of_loop (mk : KeyDatabaseInfo → ExecuteContext)
    (f : Nat → Int → LoopState → LoopState) (key_dbs : List KeyDatabaseInfo)
    (total_tasks : Int) (cb : Bool) (init : LoopState) :
    Outcome.issued
        { cb_calls := [], enumerations := 1,
          loops := [
            { total_tasks := total_tasks, cb := cb, init := init,
              executions :=
                for_key_dbs (fun i db => { ctx := mk db, exit_func := f i }) 0 key_dbs }] }
      = key_dbs.map mk := by
  simp only [Outcome.issued, List.map_cons, List.map_nil, List.flatten_cons, List.flatten_nil,
    List.append_nil]
  rw [for_key_dbs_ctx]

/-- C12, as stated, fails: the command `ResetConfigures` issues for a key database
has the argument list `--homedir <dir> --apply-defaults`; the flag is the last
argument, neither `all` nor a component follows it. -/
theorem reset_flag_without_component :
    (ResetConfigures id "gpgconf" [⟨0, "a", "/a"⟩] true).issued
      = [{ cmd := "gpgconf", arguments := ["--homedir", "/a", "--apply-defaults"] }] ∧
    ((ResetConfigures id "gpgconf" [⟨0, "a", "/a"⟩] true).issued.map
      (fun c => c.arguments.getLast?)) = [some "--apply-defaults"] := by
  decide

/-- C12, amended: for every list of `N` key databases each dispatch operation
issues exactly `N` executions of the gpgconf program, the `i`-th for the key
database at position `i`, with the arguments `--homedir <dir of the database>`
followed by `--reload gpg-agent` (`ClearGpgPasswordCache`), `--reload all`
(`ReloadGpgComponents`), `--kill all` (`KillAllGpgComponents`), `--launch all`
(`LaunchGpgComponents`), or `--apply-defaults` alone (`ResetConfigures`). -/
theorem issued_commands (home : String → String) (gpgconf_path : String)
    (hpath : gpgconf_path.isEmpty = false) (key_dbs : List KeyDatabaseInfo) (cb : Bool) :
    (ClearGpgPasswordCache home gpgconf_path key_dbs cb).issued
      = key_dbs.map (fun key_db =>
          { cmd := gpgconf_path, arguments := ["--homedir", home key_db.path, "--reload", "gpg-agent"] }) ∧
    (ReloadGpgComponents home gpgconf_path key_dbs cb).issued
      = key_dbs.map (fun key_db =>
          { cmd := gpgconf_path, arguments := ["--homedir", home key_db.path, "--reload", "all"] }) ∧
    (KillAllGpgComponents home gpgconf_path key_dbs cb).issued
      = key_dbs.map (fun key_db =>
          { cmd := gpgconf_path, arguments := ["--homedir", home key_db.path, "--kill", "all"] }) ∧
    (ResetConfigures home gpgconf_path key_dbs cb).issued
      = key_dbs.map (fun key_db =>
          { cmd := gpgconf_path, arguments := ["--homedir", home key_db.path, "--apply-defaults"] }) ∧
    (LaunchGpgComponents home gpgconf_path key_dbs cb).issued
      = key_dbs.map (fun key_db =>
          { cmd := gpgconf_path, arguments := ["--homedir", home key_db.path, "--launch", "all"] }) ∧
    ∀ op ∈ dispatch_operations home, (op gpgconf_path key_dbs cb).issued.length = key_dbs.length := by
  have h1 : (ClearGpgPasswordCache home gpgconf_path key_dbs cb).issued
      = key_dbs.map (fun key_db =>
          { cmd := gpgconf_path, arguments := ["--homedir", home key_db.path, "--reload", "gpg-agent"] }) := by
    simp only [ClearGpgPasswordCache, hpath, Bool.false_eq_true, if_false]
    exact issued_of_loop _ _ _ _ _ _
  have h2 : (ReloadGpgComponents home gpgconf_path key_dbs cb).issued
      = key_dbs.map (fun key_db =>
          { cmd := gpgconf_path, arguments := ["--homedir", home key_db.path, "--reload", "all"] }) := by
    simp only [ReloadGpgComponents, hpath, Bool.false_eq_true, if_false]
    exact issued_of_loop _ _ _ _ _ _
  have h3 : (KillAllGpgComponents home gpgconf_path key_dbs cb).issued
      = key_dbs.map (fun key_db =>
          { cmd := gpgconf_path, arguments := ["--homedir", home key_db.path, "--kill", "all"] }) := by
    simp only [KillAllGpgComponents, hpath, Bool.false_eq_true, if_false]
    exact issued_of_loop _ _ _ _ _ _
  have h4 : (ResetConfigures home gpgconf_path key_dbs cb).issued
      = key_dbs.map (fun key_db =>
          { cmd := gpgconf_path, arguments := ["--homedir", home key_db.path, "--apply-defaults"] }) := by
    simp only [ResetConfigures, hpath, Bool.false_eq_true, if_false]
    exact issued_of_loop _ _ _ _ _ _
  have h5 : (LaunchGpgComponents home gpgconf_path key_dbs cb).issued
      = key_dbs.map (fun key_db =>
          { cmd := gpgconf_path, arguments := ["--homedir", home key_db.path, "--launch", "all"] }) := by
    simp only [LaunchGpgComponents, hpath, Bool.false_eq_true, if_false]
    exact issued_of_loop _ _ _ _ _ _
  refine ⟨h1, h2, h3, h4, h5, ?_⟩
  intro op hop
  simp only [dispatch_operations, List.mem_cons, List.mem_singleton, List.not_mem_nil,
    or_false] at hop
  rcases hop with h | h | h | h | h <;> subst h
  · rw [h1, List.length_map]
  · rw [h2, List.length_map]
  · rw [h3, List.length_map]
  · rw [h4, List.length_map]
  · rw [h5, List.length_map]

/-- Witness of the amended C12: two key databases. -/
theorem issued_commands_witness :
    (ResetConfigures id "gpgconf" [⟨0, "a", "/a"⟩, ⟨1, "b", "/b"⟩] true).issued
      = [{ cmd := "gpgconf", arguments := ["--homedir", "/a", "--apply-defaults"] },
         { cmd := "gpgconf", arguments := ["--homedir", "/b", "--apply-defaults"] }] ∧
    (ClearGpgPasswordCache id "gpgconf" [⟨0, "a", "/a"⟩, ⟨1, "b", "/b"⟩] true).issued
      = [{ cmd := "gpgconf", arguments := ["--homedir", "/a", "--reload", "gpg-agent"] },
         { cmd := "gpgconf", arguments := ["--homedir", "/b", "--reload", "gpg-agent"] }] :=
  ⟨(issued_commands id "gpgconf" (by decide) [⟨0, "a", "/a"⟩, ⟨1, "b", "/b"⟩] true).2.2.2.1,
   (issued_commands id "gpgconf" (by decide) [⟨0, "a", "/a"⟩, ⟨1, "b", "/b"⟩] true).1⟩

/-! ### Leaving `AS_ERROR` -/

/-- C19: in each of the three transition tables, from `AS_ERROR` the next state is
`AS_QUIT` exactly when the event is `GET_LINE keyedit.prompt`, and `AS_ERROR` for
every other keyword and argument. -/
theorem error_leaves_by_forced_quit (status args : String) :
    SetOwnerTrustLevel.next_state_handler AS_ERROR status args
      = (if status = "GET_LINE" ∧ args = "keyedit.prompt" then AS_QUIT else AS_ERROR) ∧
    DeleteSubkey.next_state_handler AS_ERROR status args
      = (if status = "GET_LINE" ∧ args = "keyedit.prompt" then AS_QUIT else AS_ERROR) ∧
    RevokeSubkey.next_state_handler AS_ERROR status args
      = (if status = "GET_LINE" ∧ args = "keyedit.prompt" then AS_QUIT else AS_ERROR) := by
  refine ⟨?_, ?_, ?_⟩
  · simp only [SetOwnerTrustLevel.next_state_handler, Bool.and_eq_true, beq_iff_eq]
  · simp only [DeleteSubkey.next_state_handler, Bool.and_eq_true, beq_iff_eq]
  · simp only [RevokeSubkey.next_state_handler, Bool.and_eq_true, beq_iff_eq]

/-! ### The expected run of `RevokeSubkey` -/

theorem revoke_text_turns (subkey_index reason_code : Int) (lines : List String)
    (state : AutomatonState) (hstate : state = AS_REASON_CODE ∨ state = AS_REASON_TEXT)
    (handler : AutomatonHandelStruct) (turns : List Turn) :
    interact_from RevokeSubkey.next_state_handler
        (RevokeSubkey.action_handler subkey_index reason_code)
        { state := state, handler := handler, cap := lines, turns := turns }
        (List.replicate (lines.length + 1) ("GET_LINE", "ask_revocation_reason.text"))
      = { state := AS_REASON_TEXT, handler := handler, cap := [],
          turns := turns
            ++ lines.map (fun l => { state := AS_REASON_TEXT, text := l, success := handler.success })
            ++ [{ state := AS_REASON_TEXT, text := "", success := handler.success }] } := by
  have hne : state ≠ AS_ERROR := by
    rcases hstate with h | h <;> subst h <;> decide
  induction lines generalizing state turns with
  | nil =>
    have hstep : interact_step RevokeSubkey.next_state_handler
        (RevokeSubkey.action_handler subkey_index reason_code)
        { state := state, handler := handler, cap := [], turns := turns }
        ("GET_LINE", "ask_revocation_reason.text")
        = { state := AS_REASON_TEXT, handler := handler, cap := [],
            turns := turns
              ++ [{ state := AS_REASON_TEXT, text := "", success := handler.success }] } := by
      rcases hstate with h | h <;> subst h <;> rfl
    rw [List.length_nil, Nat.zero_add, List.replicate_one,
      interact_from_cons _ _ _ hne, hstep]
    simp only [interact_from, List.map_nil, List.append_nil]
  | cons l rest ih =>
    have hstep : interact_step RevokeSubkey.next_state_handler
        (RevokeSubkey.action_handler subkey_index reason_code)
        { state := state, handler := handler, cap := l :: rest, turns := turns }
        ("GET_LINE", "ask_revocation_reason.text")
        = { state := AS_REASON_TEXT, handler := handler, cap := rest,
            turns := turns
              ++ [{ state := AS_REASON_TEXT, text := l, success := handler.success }] } := by
      rcases hstate with h | h <;> subst h <;> rfl
    rw [List.length_cons, List.replicate_succ, interact_from_cons _ _ _ hne, hstep,
      ih _ (Or.inr rfl) _ (by decide)]
    simp

theorem revoke_run_session (subkey_index reason_code : Int) (reason_text_lines : List String) :
    interact RevokeSubkey.next_state_handler
        (RevokeSubkey.action_handler subkey_index reason_code) reason_text_lines
        (RevokeSubkey.expected_events reason_text_lines.length)
      = { state := AS_SAVE, handler := { success := true }, cap := [],
          turns :=
            [{ state := AS_SELECT, text := "key " ++ QString_number subkey_index, success := false },
             { state := AS_COMMAND, text := "revkey", success := false },
             { state := AS_REALLY_ULTIMATE, text := "Y", success := false },
             { state := AS_REASON_CODE, text := QString_number reason_code, success := false }]
            ++ reason_text_lines.map
                (fun l => { state := AS_REASON_TEXT, text := l, success := false })
            ++ [{ state := AS_REASON_TEXT, text := "", success := false },
                { state := AS_REALLY_ULTIMATE, text := "Y", success := false },
                { state := AS_QUIT, text := "quit", success := false },
                { state := AS_SAVE, text := "Y", success := true }] } := by
  have hA : interact RevokeSubkey.next_state_handler
        (RevokeSubkey.action_handler subkey_index reason_code) reason_text_lines
        [("GET_LINE", "keyedit.prompt"), ("GET_LINE", "keyedit.prompt"),
         ("GET_BOOL", "keyedit.revoke.subkey.okay"), ("GET_LINE", "ask_revocation_reason.code")]
      = { state := AS_REASON_CODE, handler := { success := false }, cap := reason_text_lines,
          turns :=
            [{ state := AS_SELECT, text := "key " ++ QString_number subkey_index, success := false },
             { state := AS_COMMAND, text := "revkey", success := false },
             { state := AS_REALLY_ULTIMATE, text := "Y", success := false },
             { state := AS_REASON_CODE, text := QString_number reason_code,
               success := false }] } := rfl
  have hC : ∀ turns : List Turn,
      interact_from RevokeSubkey.next_state_handler
        (RevokeSubkey.action_handler subkey_index reason_code)
        { state := AS_REASON_TEXT, handler := { success := false }, cap := [], turns := turns }
        [("GET_BOOL", "ask_revocation_reason.okay"), ("GET_LINE", "keyedit.prompt"),
         ("GET_BOOL", "keyedit.save.okay")]
      = { state := AS_SAVE, handler := { success := true }, cap := [],
          turns := turns ++ [{ state := AS_REALLY_ULTIMATE, text := "Y", success := false }]
            ++ [{ state := AS_QUIT, text := "quit", success := false }]
            ++ [{ state := AS_SAVE, text := "Y", success := true }] } := fun _ => rfl
  rw [RevokeSubkey.expected_events, interact_append, interact_append, hA, revoke_text_turns _ _ _ _
    (Or.inl rfl), hC]
  simp

/-- C20: for every subkey index, reason code and queue of reason lines
`[l1, ..., ln]`, the run of the tables of `RevokeSubkey` from `AS_START` on the
expected events, with `n + 1` requests for a line of reason text, never enters
`AS_ERROR`, sends "key i", "revkey", "Y", the decimal rendering of the reason code,
`l1`, ..., `ln`, the empty string, "Y", "quit", "Y" in this order, and sets the
success flag at the final `AS_SAVE` and at no earlier turn. -/
theorem revoke_expected_run (subkey_index reason_code : Int) (reason_text_lines : List String) :
    (interact RevokeSubkey.next_state_handler
        (RevokeSubkey.action_handler subkey_index reason_code) reason_text_lines
        (RevokeSubkey.expected_events reason_text_lines.length)).turns
      = [{ state := AS_SELECT, text := "key " ++ QString_number subkey_index, success := false },
         { state := AS_COMMAND, text := "revkey", success := false },
         { state := AS_REALLY_ULTIMATE, text := "Y", success := false },
         { state := AS_REASON_CODE, text := QString_number reason_code, success := false }]
        ++ reason_text_lines.map
            (fun l => { state := AS_REASON_TEXT, text := l, success := false })
        ++ [{ state := AS_REASON_TEXT, text := "", success := false },
            { state := AS_REALLY_ULTIMATE, text := "Y", success := false },
            { state := AS_QUIT, text := "quit", success := false },
            { state := AS_SAVE, text := "Y", success := true }] ∧
    (interact RevokeSubkey.next_state_handler
        (RevokeSubkey.action_handler subkey_index reason_code) reason_text_lines
        (RevokeSubkey.expected_events reason_text_lines.length)).turns.map (fun t => t.text)
      = ["key " ++ QString_number subkey_index, "revkey", "Y", QString_number reason_code]
        ++ reason_text_lines ++ ["", "Y", "quit", "Y"] ∧
    AS_ERROR ∉ (interact RevokeSubkey.next_state_handler
        (RevokeSubkey.action_handler subkey_index reason_code) reason_text_lines
        (RevokeSubkey.expected_events reason_text_lines.length)).turns.map (fun t => t.state) ∧
    (interact RevokeSubkey.next_state_handler
        (RevokeSubkey.action_handler subkey_index reason_code) reason_text_lines
        (RevokeSubkey.expected_events reason_text_lines.length)).state = AS_SAVE ∧
    (interact RevokeSubkey.next_state_handler
        (RevokeSubkey.action_handler subkey_index reason_code) reason_text_lines
        (RevokeSubkey.expected_events reason_text_lines.length)).handler.success = true := by
  rw [revoke_run_session]
  refine ⟨rfl, ?_, ?_, rfl, rfl⟩
  · simp [Function.comp_def]
  · simp

/-! ### Paths to the success flag -/

theorem trust_edges (s t : AutomatonState)
    (h : admits SetOwnerTrustLevel.next_state_handler s t) (hne : t ≠ AS_ERROR) :
    (s, t) ∈ [(AS_START, AS_COMMAND), (AS_COMMAND, AS_VALUE), (AS_VALUE, AS_QUIT),
      (AS_VALUE, AS_REALLY_ULTIMATE), (AS_REALLY_ULTIMATE, AS_QUIT), (AS_QUIT, AS_SAVE),
      (AS_ERROR, AS_QUIT)] := by
  obtain ⟨k, a, rfl⟩ := h
  cases s <;> simp only [SetOwnerTrustLevel.next_state_handler] at hne ⊢ <;>
    (try split_ifs at hne ⊢) <;> simp at hne ⊢

theorem delete_edges (s t : AutomatonState)
    (h : admits DeleteSubkey.next_state_handler s t) (hne : t ≠ AS_ERROR) :
    (s, t) ∈ [(AS_START, AS_SELECT), (AS_SELECT, AS_COMMAND), (AS_COMMAND, AS_QUIT),
      (AS_COMMAND, AS_REALLY_ULTIMATE), (AS_REALLY_ULTIMATE, AS_QUIT), (AS_QUIT, AS_SAVE),
      (AS_ERROR, AS_QUIT)] := by
  obtain ⟨k, a, rfl⟩ := h
  cases s <;> simp only [DeleteSubkey.next_state_handler] at hne ⊢ <;>
    (try split_ifs at hne ⊢) <;> simp at hne ⊢

theorem revoke_into_save (s : AutomatonState)
    (h : admits RevokeSubkey.next_state_handler s AS_SAVE) : s = AS_QUIT := by
  obtain ⟨k, a, h⟩ := h
  cases s <;> simp only [RevokeSubkey.next_state_handler] at h <;>
    (try split_ifs at h) <;> simp at h ⊢

theorem revoke_sets_success_iff (subkey_index reason_code : Int) (lines : List String)
    (state : AutomatonState) :
    RevokeSubkey.sets_success subkey_index reason_code lines state = true ↔ state = AS_SAVE := by
  cases state <;> cases lines <;>
    simp [RevokeSubkey.sets_success, RevokeSubkey.action_handler,
      AutomatonHandelStruct.SetSuccess]

theorem revoke_success_tail (subkey_index reason_code : Int) (lines : List String)
    (rest : List AutomatonState) (s : AutomatonState)
    (hpath : path_from RevokeSubkey.next_state_handler s rest)
    (hfirst : first_success (RevokeSubkey.sets_success subkey_index reason_code lines)
      (s :: rest)) :
    (s = AS_SAVE ∧ rest = []) ∨ ∃ pre, s :: rest = pre ++ [AS_QUIT, AS_SAVE] := by
  induction rest generalizing s with
  | nil =>
    left
    exact ⟨(revoke_sets_success_iff _ _ _ _).mp hfirst, rfl⟩
  | cons t r ih =>
    right
    obtain ⟨-, hadm, hrest⟩ := hpath
    rcases ih t hrest hfirst.2 with ⟨ht, hr⟩ | ⟨pre, hpre⟩
    · subst ht
      subst hr
      have hs := revoke_into_save s hadm
      subst hs
      exact ⟨[], rfl⟩
    · exact ⟨s :: pre, by rw [hpre]; rfl⟩

theorem trust_success_path (trust_level : Int) (path : List AutomatonState) :
    reaches_success SetOwnerTrustLevel.next_state_handler
        (SetOwnerTrustLevel.sets_success trust_level) path
      ↔ path = [AS_START, AS_COMMAND, AS_VALUE] := by
  constructor
  · rintro ⟨rest, rfl, hpath, hfirst⟩
    cases rest with
    | nil => exact absurd hfirst (by simp [first_success, SetOwnerTrustLevel.sets_success,
        SetOwnerTrustLevel.action_handler])
    | cons a r1 =>
      obtain ⟨ha, hadm, hp1⟩ := hpath
      have hea := trust_edges _ _ hadm ha
      simp at hea
      subst hea
      cases r1 with
      | nil => exact absurd hfirst.2 (by simp [first_success, SetOwnerTrustLevel.sets_success,
          SetOwnerTrustLevel.action_handler])
      | cons b r2 =>
        obtain ⟨hb, hadm2, hp2⟩ := hp1
        have heb := trust_edges _ _ hadm2 hb
        simp at heb
        subst heb
        cases r2 with
        | nil => rfl
        | cons c r3 =>
          exact absurd hfirst.2.2.1 (by simp [SetOwnerTrustLevel.sets_success,
            SetOwnerTrustLevel.action_handler, AutomatonHandelStruct.SetSuccess])
  · rintro rfl
    refine ⟨[AS_COMMAND, AS_VALUE], rfl, ?_, ?_⟩
    · exact ⟨by decide, ⟨"GET_LINE", "keyedit.prompt", rfl⟩, by decide,
        ⟨"GET_LINE", "edit_ownertrust.value", rfl⟩, trivial⟩
    · exact ⟨rfl, rfl, rfl⟩

theorem delete_success_path (subkey_index : Int) (path : List AutomatonState) :
    reaches_success DeleteSubkey.next_state_handler
        (DeleteSubkey.sets_success subkey_index) path
      ↔ path = [AS_START, AS_SELECT, AS_COMMAND, AS_REALLY_ULTIMATE]
        ∨ path = [AS_START, AS_SELECT, AS_COMMAND, AS_QUIT, AS_SAVE] := by
  constructor
  · rintro ⟨rest, rfl, hpath, hfirst⟩
    cases rest with
    | nil => exact absurd hfirst (by simp [first_success, DeleteSubkey.sets_success,
        DeleteSubkey.action_handler])
    | cons a r1 =>
      obtain ⟨ha, hadm, hp1⟩ := hpath
      have hea := delete_edges _ _ hadm ha
      simp at hea
      subst hea
      cases r1 with
      | nil => exact absurd hfirst.2 (by simp [first_success, DeleteSubkey.sets_success,
          DeleteSubkey.action_handler])
      | cons b r2 =>
        obtain ⟨hb, hadm2, hp2⟩ := hp1
        have heb := delete_edges _ _ hadm2 hb
        simp at heb
        subst heb
        cases r2 with
        | nil => exact absurd hfirst.2.2 (by simp [first_success, DeleteSubkey.sets_success,
            DeleteSubkey.action_handler])
        | cons c r3 =>
          obtain ⟨hc, hadm3, hp3⟩ := hp2
          have hec := delete_edges _ _ hadm3 hc
          simp at hec
          rcases hec with hec | hec <;> subst hec
          · cases r3 with
            | nil => exact absurd hfirst.2.2.2 (by simp [first_success,
                DeleteSubkey.sets_success, DeleteSubkey.action_handler])
            | cons d r4 =>
              obtain ⟨hd, hadm4, hp4⟩ := hp3
              have hed := delete_edges _ _ hadm4 hd
              simp at hed
              subst hed
              cases r4 with
              | nil => right; rfl
              | cons e r5 =>
                exact absurd hfirst.2.2.2.2.1 (by simp [DeleteSubkey.sets_success,
                  DeleteSubkey.action_handler, AutomatonHandelStruct.SetSuccess])
          · cases r3 with
            | nil => left; rfl
            | cons d r4 =>
              exact absurd hfirst.2.2.2.1 (by simp [DeleteSubkey.sets_success,
                DeleteSubkey.action_handler, AutomatonHandelStruct.SetSuccess])
  · rintro (rfl | rfl)
    · refine ⟨[AS_SELECT, AS_COMMAND, AS_REALLY_ULTIMATE], rfl, ?_, ?_⟩
      · exact ⟨by decide, ⟨"GET_LINE", "keyedit.prompt", rfl⟩, by decide,
          ⟨"GET_LINE", "keyedit.prompt", rfl⟩, by decide,
          ⟨"GET_BOOL", "keyedit.remove.subkey.okay", rfl⟩, trivial⟩
      · exact ⟨rfl, rfl, rfl, rfl⟩
    · refine ⟨[AS_SELECT, AS_COMMAND, AS_QUIT, AS_SAVE], rfl, ?_, ?_⟩
      · exact ⟨by decide, ⟨"GET_LINE", "keyedit.prompt", rfl⟩, by decide,
          ⟨"GET_LINE", "keyedit.prompt", rfl⟩, by decide,
          ⟨"GET_LINE", "keyedit.prompt", rfl⟩, by decide,
          ⟨"GET_BOOL", "keyedit.save.okay", rfl⟩, trivial⟩
      · exact ⟨rfl, rfl, rfl, rfl, rfl⟩

/-- C13, as stated, fails: for `DeleteSubkey` two different state paths from
`AS_START`, admitted by the table without visiting `AS_ERROR`, reach a first action
setting the success flag, so there is not exactly one; on the second the action is
the one at `AS_SAVE`, invoked after the automaton has entered `AS_QUIT`. -/
theorem delete_two_success_paths :
    ¬ (∃! path, reaches_success DeleteSubkey.next_state_handler
        (DeleteSubkey.sets_success 1) path) ∧
    reaches_success DeleteSubkey.next_state_handler (DeleteSubkey.sets_success 1)
      [AS_START, AS_SELECT, AS_COMMAND, AS_REALLY_ULTIMATE] ∧
    reaches_success DeleteSubkey.next_state_handler (DeleteSubkey.sets_success 1)
      [AS_START, AS_SELECT, AS_COMMAND, AS_QUIT, AS_SAVE] := by
  have h1 := (delete_success_path 1 [AS_START, AS_SELECT, AS_COMMAND, AS_REALLY_ULTIMATE]).mpr
    (Or.inl rfl)
  have h2 := (delete_success_path 1 [AS_START, AS_SELECT, AS_COMMAND, AS_QUIT, AS_SAVE]).mpr
    (Or.inr rfl)
  refine ⟨?_, h1, h2⟩
  rintro ⟨p, -, huniq⟩
  have e1 := huniq _ h1
  have e2 := huniq _ h2
  rw [← e2] at e1
  exact absurd e1 (by decide)

/-- C13, amended: for `SetOwnerTrustLevel` exactly one state path from `AS_START`,
admitted by the table without visiting `AS_ERROR`, reaches a first action setting
the success flag, namely `AS_START`, `AS_COMMAND`, `AS_VALUE`, before `AS_QUIT`.
For `DeleteSubkey` there are exactly two: the one ending at
`AS_REALLY_ULTIMATE`, before `AS_QUIT`, and the one through `AS_QUIT` ending at
`AS_SAVE`.  For `RevokeSubkey` every such path ends with `AS_QUIT`, `AS_SAVE`, so the
action is invoked after `AS_QUIT` has been entered, and there is more than one such
path. -/
theorem success_paths (trust_level subkey_index reason_code : Int)
    (reason_text_lines : List String) :
    (∀ path, reaches_success SetOwnerTrustLevel.next_state_handler
        (SetOwnerTrustLevel.sets_success trust_level) path
      ↔ path = [AS_START, AS_COMMAND, AS_VALUE]) ∧
    (∀ path, reaches_success DeleteSubkey.next_state_handler
        (DeleteSubkey.sets_success subkey_index) path
      ↔ path = [AS_START, AS_SELECT, AS_COMMAND, AS_REALLY_ULTIMATE]
        ∨ path = [AS_START, AS_SELECT, AS_COMMAND, AS_QUIT, AS_SAVE]) ∧
    (∀ path, reaches_success RevokeSubkey.next_state_handler
        (RevokeSubkey.sets_success subkey_index reason_code reason_text_lines) path
      → ∃ pre, path = pre ++ [AS_QUIT, AS_SAVE]) ∧
    reaches_success RevokeSubkey.next_state_handler
      (RevokeSubkey.sets_success subkey_index reason_code reason_text_lines)
      [AS_START, AS_SELECT, AS_COMMAND, AS_QUIT, AS_SAVE] ∧
    reaches_success RevokeSubkey.next_state_handler
      (RevokeSubkey.sets_success subkey_index reason_code reason_text_lines)
      [AS_START, AS_SELECT, AS_COMMAND, AS_REALLY_ULTIMATE, AS_QUIT, AS_SAVE] := by
  refine ⟨trust_success_path trust_level, delete_success_path subkey_index, ?_, ?_, ?_⟩
  · rintro path ⟨rest, rfl, hpath, hfirst⟩
    rcases revoke_success_tail _ _ _ rest AS_START hpath hfirst with ⟨h, -⟩ | h
    · exact absurd h (by decide)
    · exact h
  · refine ⟨[AS_SELECT, AS_COMMAND, AS_QUIT, AS_SAVE], rfl, ?_, ?_⟩
    · exact ⟨by decide, ⟨"GET_LINE", "keyedit.prompt", rfl⟩, by decide,
        ⟨"GET_LINE", "keyedit.prompt", rfl⟩, by decide,
        ⟨"GET_LINE", "keyedit.prompt", rfl⟩, by decide,
        ⟨"GET_BOOL", "keyedit.save.okay", rfl⟩, trivial⟩
    · exact ⟨rfl, rfl, rfl, rfl, rfl⟩
  · refine ⟨[AS_SELECT, AS_COMMAND, AS_REALLY_ULTIMATE, AS_QUIT, AS_SAVE], rfl, ?_, ?_⟩
    · exact ⟨by decide, ⟨"GET_LINE", "keyedit.prompt", rfl⟩, by decide,
        ⟨"GET_LINE", "keyedit.prompt", rfl⟩, by decide,
        ⟨"GET_BOOL", "keyedit.revoke.subkey.okay", rfl⟩, by decide,
        ⟨"GET_LINE", "keyedit.prompt", rfl⟩, by decide,
        ⟨"GET_BOOL", "keyedit.save.okay", rfl⟩, trivial⟩
    · exact ⟨rfl, rfl, rfl, rfl, rfl, rfl⟩

/-! ### Task::Impl -/

namespace Thread

theorem slot_trace_cases (t : Task.Impl) (rtn : Int) (env : QtEnv) :
    (t.slot_task_run_callback rtn env).2
        = [Event.callback rtn t.data_object_, Event.SignalTaskEnd] ∨
    (t.slot_task_run_callback rtn env).2 = [Event.error "failed to invoke callback"] ∨
    (t.slot_task_run_callback rtn env).2
        = [Event.error "failed to invoke callback", Event.SignalTaskEnd] ∨
    (t.slot_task_run_callback rtn env).2 = [Event.SignalTaskEnd] ∨
    (t.slot_task_run_callback rtn env).2 = [] := by
  unfold Task.Impl.slot_task_run_callback
  simp only [Task.Impl.SetRTN]
  split_ifs
  · exact Or.inl rfl
  · exact Or.inr (Or.inl rfl)
  · split
    · exact Or.inr (Or.inr (Or.inr (Or.inr rfl)))
    · exact Or.inl rfl
  · exact Or.inr (Or.inr (Or.inl rfl))
  · exact Or.inr (Or.inr (Or.inr (Or.inl rfl)))

/-- C14: in every run of `slot_task_run_callback` in which the callback is invoked,
the events of the run are exactly: the callback, called with the return code the
handler received and the data object of the task, then `SignalTaskEnd`; so the
signal is emitted after the callback has returned and not before.  The return code
the handler receives from the runnable package is the one the body returned. -/
theorem callback_then_task_end (t : Task.Impl) (rtn : Int) (env : QtEnv) :
    ((t.slot_task_run_callback rtn env).2.any Event.is_callback = true →
      (t.slot_task_run_callback rtn env).2
        = [Event.callback rtn t.data_object_, Event.SignalTaskEnd]) ∧
    (∀ runnable, t.runnable_ = some runnable →
      t.run_callback_after_runnable_finished_ = true →
      t.runnable_package.2 = [Event.Run (runnable t.data_object_),
        Event.SignalTaskRunnableEnd (runnable t.data_object_)] ∧
      t.runnable_package.1.data_object_ = t.data_object_) := by
  constructor
  · intro h
    rcases slot_trace_cases t rtn env with h1 | h1 | h1 | h1 | h1
    · exact h1
    all_goals (rw [h1] at h; exact absurd h (by decide))
  · intro runnable hr hflag
    simp [Task.Impl.runnable_package, Task.Impl.Run, Task.Impl.SetRTN, hr, hflag]

/-- Witness of C14: a task whose callback thread is another thread than the one
that handles the completion signal. -/
theorem callback_then_task_end_witness :
    (Task.Impl.slot_task_run_callback
      { sequency_ := true, callback_ := true, runnable_ := some (fun _ => 7),
        run_callback_after_runnable_finished_ := true, rtn_ := 0, callback_thread_ := 1,
        data_object_ := 5, thread := 0 } 7
      { currentThread := 0, lives_in := id, invoke_ok := true }).2
      = [Event.callback 7 5, Event.SignalTaskEnd] :=
  (callback_then_task_end
    { sequency_ := true, callback_ := true, runnable_ := some (fun _ => 7),
      run_callback_after_runnable_finished_ := true, rtn_ := 0, callback_thread_ := 1,
      data_object_ := 5, thread := 0 } 7
    { currentThread := 0, lives_in := id, invoke_ok := true }).1 (by decide)

end Thread

namespace Thread

theorem slot_callbacks_le_one (t : Task.Impl) (rtn : Int) (env : QtEnv) :
    (t.slot_task_run_callback rtn env).2.countP Event.is_callback ≤ 1 := by
  rcases slot_trace_cases t rtn env with h | h | h | h | h <;> rw [h] <;>
    simp [List.countP_cons, Event.is_callback]

theorem completions_count (lives_in : QThread → QThread) (ok : Bool) (events : List Event)
    (t : Task.Impl) :
    (Task.Impl.completions lives_in ok t events).2.countP Event.is_callback
      ≤ events.countP Event.is_runnable_end := by
  induction events generalizing t with
  | nil => simp [Task.Impl.completions]
  | cons e rest ih =>
    cases e with
    | SignalTaskRunnableEnd rtn =>
      simp only [Task.Impl.completions, List.countP_append]
      have h1 := slot_callbacks_le_one t rtn
        { currentThread := t.thread, lives_in := lives_in, invoke_ok := ok }
      have h2 := ih (t.slot_task_run_callback rtn
        { currentThread := t.thread, lives_in := lives_in, invoke_ok := ok }).1
      have h3 : (Event.SignalTaskRunnableEnd rtn :: rest).countP Event.is_runnable_end
          = rest.countP Event.is_runnable_end + 1 := by
        rw [List.countP_cons_of_pos]
        rfl
      omega
    | Run r =>
      simp only [Task.Impl.completions]
      have h3 : (Event.Run r :: rest).countP Event.is_runnable_end
          = rest.countP Event.is_runnable_end := by
        rw [List.countP_cons_of_neg]
        simp [Event.is_runnable_end]
      rw [h3]
      exact ih t
    | callback r d =>
      simp only [Task.Impl.completions]
      have h3 : (Event.callback r d :: rest).countP Event.is_runnable_end
          = rest.countP Event.is_runnable_end := by
        rw [List.countP_cons_of_neg]
        simp [Event.is_runnable_end]
      rw [h3]
      exact ih t
    | SignalTaskEnd =>
      simp only [Task.Impl.completions]
      have h3 : (Event.SignalTaskEnd :: rest).countP Event.is_runnable_end
          = rest.countP Event.is_runnable_end := by
        rw [List.countP_cons_of_neg]
        decide
      rw [h3]
      exact ih t
    | error m =>
      simp only [Task.Impl.completions]
      have h3 : (Event.error m :: rest).countP Event.is_runnable_end
          = rest.countP Event.is_runnable_end := by
        rw [List.countP_cons_of_neg]
        simp [Event.is_runnable_end]
      rw [h3]
      exact ih t
    | returned =>
      simp only [Task.Impl.completions]
      have h3 : (Event.returned :: rest).countP Event.is_runnable_end
          = rest.countP Event.is_runnable_end := by
        rw [List.countP_cons_of_neg]
        decide
      rw [h3]
      exact ih t

theorem package_counts (t : Task.Impl) :
    t.runnable_package.2.countP Event.is_callback = 0 ∧
    t.runnable_package.2.countP Event.is_runnable_end ≤ 1 := by
  simp only [Task.Impl.runnable_package]
  split_ifs <;> simp [List.countP_cons, Event.is_callback, Event.is_runnable_end]

theorem run_counts (t : Task.Impl) (env : QtEnv) :
    (t.RunnableInterfaceRun env).2.countP Event.is_callback = 0 ∧
    (t.RunnableInterfaceRun env).2.countP Event.is_runnable_end ≤ 1 := by
  obtain ⟨h1, h2⟩ := package_counts t
  unfold Task.Impl.RunnableInterfaceRun
  split_ifs
  · split
    · simp [List.countP_append, List.countP_cons, h1, Event.is_callback, Event.is_runnable_end]
      exact h2
    · simp [List.countP_append, List.countP_cons, h1, Event.is_callback, Event.is_runnable_end]
      exact h2
    · simp [List.countP_cons, h1, Event.is_callback, Event.is_runnable_end]
      exact h2
    · simp
  · simp [List.countP_cons, Event.is_callback, Event.is_runnable_end]

theorem perform_callbacks_le_one (t : Task.Impl) (op : Operation) :
    ((t.perform op).2.1 ++ (t.perform op).2.2).countP Event.is_callback ≤ 1 := by
  cases op with
  | SlotRun env ok =>
    simp only [Task.Impl.perform, Task.Impl.SlotRun, List.countP_append]
    have h := run_counts t env
    have hc := completions_count env.lives_in ok (t.RunnableInterfaceRun env).2
      (t.RunnableInterfaceRun env).1
    omega
  | RunnableInterfaceRun env ok =>
    simp only [Task.Impl.perform, List.countP_append]
    have h := run_counts t env
    have hc := completions_count env.lives_in ok (t.RunnableInterfaceRun env).2
      (t.RunnableInterfaceRun env).1
    omega

theorem perform_all_callbacks_le (ops : List Operation) (t : Task.Impl) :
    callback_invocations (t.perform_all ops) ≤ ops.length := by
  induction ops generalizing t with
  | nil => simp [Task.Impl.perform_all, callback_invocations]
  | cons op rest ih =>
    have h1 := perform_callbacks_le_one t op
    have h2 := ih (t.perform op).1
    simp only [callback_invocations, Task.Impl.perform_all, List.map_cons, List.sum_cons,
      List.length_cons] at h2 ⊢
    omega

end Thread

namespace Thread

/-- C16, as stated, fails: a task with a callback on which `SlotRun` is invoked
twice has its callback invoked twice. -/
theorem callback_invoked_twice :
    callback_invocations (Task.Impl.perform_all
      { sequency_ := true, callback_ := true, runnable_ := some (fun _ => 7),
        run_callback_after_runnable_finished_ := true, rtn_ := 0, callback_thread_ := 0,
        data_object_ := 5, thread := 0 }
      [Operation.SlotRun { currentThread := 0, lives_in := id, invoke_ok := true } true,
       Operation.SlotRun { currentThread := 0, lives_in := id, invoke_ok := true } true]) = 2 := by
  decide

/-- C16, amended: each run of the completion handler invokes the callback at most
once, and each invocation of `SlotRun` or `RunnableInterfaceRun` raises at most one
completion signal; so for every task and every sequence of operations on it the
callback is invoked at most as many times as there are operations, and at most once
for a task that is run once. -/
theorem callback_at_most_once_per_run (t : Task.Impl) (ops : List Operation) :
    callback_invocations (t.perform_all ops) ≤ ops.length ∧
    (∀ op, callback_invocations (t.perform_all [op]) ≤ 1) ∧
    (∀ rtn env, (t.slot_task_run_callback rtn env).2.countP Event.is_callback ≤ 1) ∧
    (∀ env, (t.RunnableInterfaceRun env).2.countP Event.is_runnable_end ≤ 1) := by
  refine ⟨perform_all_callbacks_le ops t, ?_, slot_callbacks_le_one t, fun env => (run_counts t env).2⟩
  intro op
  exact perform_all_callbacks_le [op] t

/-- C17, as stated, fails: for a task that is not pinned and lives in the caller's
thread, `RunnableInterfaceRun` invokes the package on the task object with the
default connection type, a direct call: the body has run, and the completion signal
has been emitted, when the call returns; the body is not queued.  And for a pinned
task in another thread whose `QThread` object lives in the caller's thread, the
blocking queued call deadlocks: the body never runs and the call never returns. -/
theorem same_thread_runs_inside_call :
    (Task.Impl.RunnableInterfaceRun
      { sequency_ := false, callback_ := true, runnable_ := some (fun _ => 7),
        run_callback_after_runnable_finished_ := true, rtn_ := 0, callback_thread_ := 0,
        data_object_ := 5, thread := 0 }
      { currentThread := 0, lives_in := id, invoke_ok := true }).2
      = [Event.Run 7, Event.SignalTaskRunnableEnd 7, Event.returned] ∧
    delivery
      (Task.Impl.invocation
        { sequency_ := false, callback_ := true, runnable_ := some (fun _ => 7),
          run_callback_after_runnable_finished_ := true, rtn_ := 0, callback_thread_ := 0,
          data_object_ := 5, thread := 0 }
        { currentThread := 0, lives_in := id, invoke_ok := true }).1
      (Task.Impl.invocation
        { sequency_ := false, callback_ := true, runnable_ := some (fun _ => 7),
          run_callback_after_runnable_finished_ := true, rtn_ := 0, callback_thread_ := 0,
          data_object_ := 5, thread := 0 }
        { currentThread := 0, lives_in := id, invoke_ok := true }).2 0 = Delivery.direct ∧
    (Task.Impl.RunnableInterfaceRun
      { sequency_ := true, callback_ := true, runnable_ := some (fun _ => 7),
        run_callback_after_runnable_finished_ := true, rtn_ := 0, callback_thread_ := 0,
        data_object_ := 5, thread := 1 }
      { currentThread := 0, lives_in := fun _ => 0, invoke_ok := true }).2 = [] := by
  decide

/-- C17, amended: `RunnableInterfaceRun` asks for `Qt::BlockingQueuedConnection` if
and only if the task is pinned and its thread is not the caller's thread.  The
context object of that call is the `QThread` object of the task: when it lives in
another thread than the caller's, the call returns after the package has run; when
it lives in the caller's thread, the call deadlocks and the package never runs.
When the task is not pinned and its thread is another thread, the default
connection type is used on the same context object: the package is queued and the
call returns before it runs when the object lives in another thread, and it is
called directly when the object lives in the caller's thread.  When the thread of
the task is the caller's thread, the package is invoked on the task object with
the default connection type, a direct call: it has run when the call returns,
pinned or not.  When Qt refuses the invocation, an error is logged and the package
does not run. -/
theorem blocking_iff_pinned_elsewhere (t : Task.Impl) (env : QtEnv) :
    ((t.invocation env).1 = ConnectionType.BlockingQueuedConnection
      ↔ (t.sequency_ = true ∧ t.thread ≠ env.currentThread)) ∧
    (env.invoke_ok = true → t.thread ≠ env.currentThread → t.sequency_ = true →
      (t.RunnableInterfaceRun env).2
        = if env.lives_in t.thread = env.currentThread then []
          else t.runnable_package.2 ++ [Event.returned]) ∧
    (env.invoke_ok = true → t.thread ≠ env.currentThread → t.sequency_ = false →
      (t.RunnableInterfaceRun env).2
        = if env.lives_in t.thread = env.currentThread
          then t.runnable_package.2 ++ [Event.returned]
          else Event.returned :: t.runnable_package.2) ∧
    (env.invoke_ok = true → t.thread = env.currentThread →
      (t.RunnableInterfaceRun env).2 = t.runnable_package.2 ++ [Event.returned]) ∧
    (env.invoke_ok = false →
      (t.RunnableInterfaceRun env).2
        = [Event.error "qt invoke method failed", Event.returned]) := by
  refine ⟨?_, ?_, ?_, ?_, ?_⟩
  · unfold Task.Impl.invocation
    split_ifs <;> simp_all
  · intro hok h1 h2
    by_cases h3 : env.lives_in t.thread = env.currentThread <;>
      simp [Task.Impl.RunnableInterfaceRun, Task.Impl.invocation, delivery, hok, h1, h2, h3]
  · intro hok h1 h2
    by_cases h3 : env.lives_in t.thread = env.currentThread <;>
      simp [Task.Impl.RunnableInterfaceRun, Task.Impl.invocation, delivery, hok, h1, h2, h3]
  · intro hok h1
    simp [Task.Impl.RunnableInterfaceRun, Task.Impl.invocation, delivery, hok, h1]
  · intro hok
    simp [Task.Impl.RunnableInterfaceRun, hok]

/-- Witness of the amended C17: a pinned task living in thread 0, run from
thread 1. -/
theorem blocking_iff_pinned_elsewhere_witness :
    (Task.Impl.RunnableInterfaceRun
      { sequency_ := true, callback_ := true, runnable_ := some (fun _ => 7),
        run_callback_after_runnable_finished_ := true, rtn_ := 0, callback_thread_ := 0,
        data_object_ := 5, thread := 0 }
      { currentThread := 1, lives_in := id, invoke_ok := true }).2
      = [Event.Run 7, Event.SignalTaskRunnableEnd 7, Event.returned] :=
  (blocking_iff_pinned_elsewhere
    { sequency_ := true, callback_ := true, runnable_ := some (fun _ => 7),
      run_callback_after_runnable_finished_ := true, rtn_ := 0, callback_thread_ := 0,
      data_object_ := 5, thread := 0 }
    { currentThread := 1, lives_in := id, invoke_ok := true }).2.1 rfl (by decide) rfl

end Thread

namespace Thread

theorem slot_body_returns (t : Task.Impl) (resumes : Bool) (rtn : Int) (env : QtEnv) :
    (t.slot_task_run_callback_body CallbackBody.returns resumes rtn env).2
      = (t.slot_task_run_callback rtn env).2.map HandlerEvent.event := by
  unfold Task.Impl.slot_task_run_callback_body Task.Impl.slot_task_run_callback
  simp only [caught_message]
  split_ifs
  · rfl
  · rfl
  · split <;> rfl
  · rfl
  · rfl

/-- C15 fails on the code.  A callback that throws is caught and logged by the
handler, and `SignalTaskEnd` follows, only when its functor is called directly: the
callback thread is the thread of the handler and the `QThread` object lives there.
When the callback thread is another thread, the functor is run by the event loop of
the thread its `QThread` object lives in: the exception leaves the functor there, no
catch clause of the handler runs and nothing is logged, whether or not the blocked
call returns afterwards.  When the callback thread is the thread of the handler but
its `QThread` object lives elsewhere, the functor is queued, the handler has
returned, and `SignalTaskEnd` is not emitted.  For a callback that returns the
events are those of `slot_task_run_callback`. -/
theorem callback_exception_escapes (t : Task.Impl) (body : CallbackBody) (message : String)
    (resumes : Bool) (rtn : Int) (env : QtEnv)
    (hbody : caught_message body = some message)
    (hcb : t.callback_ = true) (hok : env.invoke_ok = true) :
    (t.slot_task_run_callback_body CallbackBody.returns resumes rtn env).2
      = (t.slot_task_run_callback rtn env).2.map HandlerEvent.event ∧
    (t.callback_thread_ = env.currentThread →
      env.lives_in t.callback_thread_ = env.currentThread →
      (t.slot_task_run_callback_body body resumes rtn env).2
        = [HandlerEvent.thrown rtn t.data_object_,
           HandlerEvent.event (Event.error message),
           HandlerEvent.event Event.SignalTaskEnd]) ∧
    (t.callback_thread_ ≠ env.currentThread →
      env.lives_in t.callback_thread_ ≠ env.currentThread →
      (t.slot_task_run_callback_body body resumes rtn env).2
        = [HandlerEvent.thrown rtn t.data_object_,
           HandlerEvent.escaped (env.lives_in t.callback_thread_)]
          ++ (if resumes then [HandlerEvent.event Event.SignalTaskEnd] else []) ∧
      ∀ m, HandlerEvent.event (Event.error m)
        ∉ (t.slot_task_run_callback_body body resumes rtn env).2) ∧
    (t.callback_thread_ = env.currentThread →
      env.lives_in t.callback_thread_ ≠ env.currentThread →
      (t.slot_task_run_callback_body body resumes rtn env).2
        = [HandlerEvent.thrown rtn t.data_object_,
           HandlerEvent.escaped (env.lives_in t.callback_thread_)]) := by
  refine ⟨slot_body_returns t resumes rtn env, ?_, ?_, ?_⟩
  · intro h1 h2
    have h3 : env.lives_in env.currentThread = env.currentThread := h1 ▸ h2
    simp [Task.Impl.slot_task_run_callback_body, Task.Impl.SetRTN, delivery, hbody, hcb, hok,
      h1, h3]
  · intro h1 h2
    have hrun : (t.slot_task_run_callback_body body resumes rtn env).2
        = [HandlerEvent.thrown rtn t.data_object_,
           HandlerEvent.escaped (env.lives_in t.callback_thread_)]
          ++ (if resumes then [HandlerEvent.event Event.SignalTaskEnd] else []) := by
      simp [Task.Impl.slot_task_run_callback_body, Task.Impl.SetRTN, delivery, hbody, hcb, hok,
        h1, h2]
    refine ⟨hrun, ?_⟩
    intro m
    rw [hrun]
    cases resumes <;> simp
  · intro h1 h2
    have h3 : env.lives_in env.currentThread ≠ env.currentThread := h1 ▸ h2
    simp [Task.Impl.slot_task_run_callback_body, Task.Impl.SetRTN, delivery, hbody, hcb, hok,
      h1, h3]

/-- Witness of C15: the callback thread 1 is another thread than thread 0, which
handles the completion signal; the callback throws `std::runtime_error("boom")`.
Nothing is logged and, the blocked call not returning, `SignalTaskEnd` is not
emitted. -/
theorem callback_exception_escapes_witness :
    (Task.Impl.slot_task_run_callback_body
      { sequency_ := true, callback_ := true, runnable_ := some (fun _ => 7),
        run_callback_after_runnable_finished_ := true, rtn_ := 0, callback_thread_ := 1,
        data_object_ := 5, thread := 0 }
      (CallbackBody.throws_exception "boom") false 7
      { currentThread := 0, lives_in := id, invoke_ok := true }).2
      = [HandlerEvent.thrown 7 5, HandlerEvent.escaped 1] :=
  ((callback_exception_escapes
    { sequency_ := true, callback_ := true, runnable_ := some (fun _ => 7),
      run_callback_after_runnable_finished_ := true, rtn_ := 0, callback_thread_ := 1,
      data_object_ := 5, thread := 0 }
    (CallbackBody.throws_exception "boom") "exception caught: boom" false 7
    { currentThread := 0, lives_in := id, invoke_ok := true } rfl rfl rfl).2.2.1
    (by decide) (by decide)).1

end Thread

/-! ### Argument checks of the three operations -/

/-- C22: for every number of subkeys and every `subkey_index` that is negative or
not below that number, `DeleteSubkey` and `RevokeSubkey` return false without
calling `DoInteract`: no turn takes place and nothing is sent to the engine,
whatever the engine would do. -/
theorem illegal_subkey_index_rejected (subkeys : Nat) (subkey_index : Int)
    (h : subkey_index < 0 ∨ subkey_index ≥ (subkeys : Int))
    (reason_code : Int) (reason_text : String) (events : List (String × String))
    (process_ok : Bool) :
    (GpgKeyManager.DeleteSubkey subkeys subkey_index events process_ok).returned = false ∧
    (GpgKeyManager.DeleteSubkey subkeys subkey_index events process_ok).interacted = false ∧
    (GpgKeyManager.DeleteSubkey subkeys subkey_index events process_ok).turns = [] ∧
    (GpgKeyManager.RevokeSubkey subkeys subkey_index reason_code reason_text events
      process_ok).returned = false ∧
    (GpgKeyManager.RevokeSubkey subkeys subkey_index reason_code reason_text events
      process_ok).interacted = false ∧
    (GpgKeyManager.RevokeSubkey subkeys subkey_index reason_code reason_text events
      process_ok).turns = [] := by
  simp only [GpgKeyManager.DeleteSubkey, GpgKeyManager.RevokeSubkey, if_pos h, and_self]

/-- Witness of C22: a key with two subkeys and the index 2. -/
theorem illegal_subkey_index_rejected_witness :
    (GpgKeyManager.DeleteSubkey 2 2 SetOwnerTrustLevel.expected_events true).returned = false ∧
    (GpgKeyManager.RevokeSubkey 2 2 0 "lost" (RevokeSubkey.expected_events 1)
      true).interacted = false :=
  ⟨(illegal_subkey_index_rejected 2 2 (by decide) 0 "lost"
      SetOwnerTrustLevel.expected_events true).1,
   (illegal_subkey_index_rejected 2 2 (by decide) 0 "lost"
      (RevokeSubkey.expected_events 1) true).2.2.2.2.1⟩

/-- C23: for every valid subkey index and every `reason_code` outside `0..3`,
`RevokeSubkey` returns false without calling `DoInteract`; for every `reason_code`
(so for one in `0..3`) the action at `AS_REASON_CODE` sends its decimal rendering
and changes neither the success flag nor the queue of lines. -/
theorem illegal_reason_code_rejected (subkeys : Nat) (subkey_index : Int)
    (hindex : 0 ≤ subkey_index ∧ subkey_index < (subkeys : Int)) (reason_code : Int)
    (reason_text : String) (events : List (String × String)) (process_ok : Bool) :
    ((reason_code < 0 ∨ reason_code > 3) →
      (GpgKeyManager.RevokeSubkey subkeys subkey_index reason_code reason_text events
        process_ok).returned = false ∧
      (GpgKeyManager.RevokeSubkey subkeys subkey_index reason_code reason_text events
        process_ok).interacted = false ∧
      (GpgKeyManager.RevokeSubkey subkeys subkey_index reason_code reason_text events
        process_ok).turns = []) ∧
    ((0 ≤ reason_code ∧ reason_code ≤ 3) →
      (GpgKeyManager.RevokeSubkey subkeys subkey_index reason_code reason_text events
        process_ok).interacted = true) ∧
    (∀ (lines : List String) (handler : AutomatonHandelStruct),
      RevokeSubkey.action_handler subkey_index reason_code lines handler AS_REASON_CODE
        = (QString_number reason_code, handler, lines)) := by
  have hvalid : ¬ (subkey_index < 0 ∨ subkey_index ≥ (subkeys : Int)) := by omega
  refine ⟨?_, ?_, fun _ _ => rfl⟩
  · intro hcode
    simp only [GpgKeyManager.RevokeSubkey, if_neg hvalid, if_pos hcode, and_self]
  · intro hcode
    have hlegal : ¬ (reason_code < 0 ∨ reason_code > 3) := by omega
    simp only [GpgKeyManager.RevokeSubkey, if_neg hvalid, if_neg hlegal]

/-- Witness of C23: subkey 1 of 2, the reason codes 4 and 3. -/
theorem illegal_reason_code_rejected_witness :
    (GpgKeyManager.RevokeSubkey 2 1 4 "lost" (RevokeSubkey.expected_events 1)
      true).returned = false ∧
    (GpgKeyManager.RevokeSubkey 2 1 3 "lost" (RevokeSubkey.expected_events 1)
      true).interacted = true :=
  ⟨((illegal_reason_code_rejected 2 1 (by decide) 4 "lost" (RevokeSubkey.expected_events 1)
      true).1 (by decide)).1,
   (illegal_reason_code_rejected 2 1 (by decide) 3 "lost" (RevokeSubkey.expected_events 1)
      true).2.1 (by decide)⟩

/-- C24 fails on the code: for the trust level 6, `SetOwnerTrustLevel` logs the
warning and goes on: it calls `DoInteract`, sends "6" at `AS_VALUE`, and returns true
on the expected events.  `DeleteSubkey` on an illegal index returns false without
interaction. -/
theorem illegal_trust_level_not_rejected :
    GpgKeyManager.SetOwnerTrustLevel 6 SetOwnerTrustLevel.expected_events true
      = { returned := true, interacted := true,
          turns := [{ state := AS_COMMAND, text := "trust", success := false },
                    { state := AS_VALUE, text := "6", success := true },
                    { state := AS_QUIT, text := "quit", success := true },
                    { state := AS_SAVE, text := "Y", success := true }],
          warnings := ["illegal owner trust level: 6"] } ∧
    GpgKeyManager.DeleteSubkey 2 6 SetOwnerTrustLevel.expected_events true
      = { returned := false, interacted := false, turns := [],
          warnings := ["illegal subkey index: 6"] } := by
  decide

/-! ### The success flag under the actions -/

/-- C25: in each of the three action tables no action clears the success flag: for
every state and every handler struct, a flag that is set before the action is set
after it; and the actions at `AS_START`, at `AS_ERROR` and at every state the table
has no case for send the empty string and leave the handler struct as it was. -/
theorem success_flag_monotone (trust_level subkey_index reason_code : Int)
    (reason_text_lines : List String) (handler : AutomatonHandelStruct)
    (state : AutomatonState) :
    (handler.success = true →
      (SetOwnerTrustLevel.action_handler trust_level handler state).2.success = true ∧
      (DeleteSubkey.action_handler subkey_index handler state).2.success = true ∧
      (RevokeSubkey.action_handler subkey_index reason_code reason_text_lines handler
        state).2.1.success = true) ∧
    (state ∈ [AS_START, AS_ERROR, AS_SELECT, AS_REASON_CODE, AS_REASON_TEXT] →
      SetOwnerTrustLevel.action_handler trust_level handler state = ("", handler)) ∧
    (state ∈ [AS_START, AS_ERROR, AS_VALUE, AS_REASON_CODE, AS_REASON_TEXT] →
      DeleteSubkey.action_handler subkey_index handler state = ("", handler)) ∧
    (state ∈ [AS_START, AS_ERROR, AS_VALUE] →
      RevokeSubkey.action_handler subkey_index reason_code reason_text_lines handler state
        = ("", handler, reason_text_lines)) := by
  refine ⟨?_, ?_, ?_, ?_⟩
  · intro h
    cases state <;> cases reason_text_lines <;>
      simp [SetOwnerTrustLevel.action_handler, DeleteSubkey.action_handler,
        RevokeSubkey.action_handler, AutomatonHandelStruct.SetSuccess, h]
  · intro h
    simp only [List.mem_cons, List.mem_singleton, List.not_mem_nil, or_false] at h
    rcases h with h | h | h | h | h <;> subst h <;> rfl
  · intro h
    simp only [List.mem_cons, List.mem_singleton, List.not_mem_nil, or_false] at h
    rcases h with h | h | h | h | h <;> subst h <;> rfl
  · intro h
    simp only [List.mem_cons, List.mem_singleton, List.not_mem_nil, or_false] at h
    rcases h with h | h | h <;> subst h <;> rfl

/-- Witness of C25: the action of `SetOwnerTrustLevel` at `AS_QUIT` on a set flag,
and the action of `RevokeSubkey` at `AS_VALUE`, for which it has no case. -/
theorem success_flag_monotone_witness :
    (SetOwnerTrustLevel.action_handler 3 { success := true } AS_QUIT).2.success = true ∧
    RevokeSubkey.action_handler 1 0 ["line1"] { success := true } AS_VALUE
      = ("", { success := true }, ["line1"]) :=
  ⟨((success_flag_monotone 3 1 0 ["line1"] { success := true } AS_QUIT).1 rfl).1,
   (success_flag_monotone 3 1 0 ["line1"] { success := true } AS_VALUE).2.2.2 (by decide)⟩

/-! ### The queue of reason lines built by `RevokeSubkey` -/

theorem split_chars_ne_nil (sep : Char) (cs : List Char) : split_chars sep cs ≠ [] := by
  cases cs with
  | nil => simp [split_chars]
  | cons c rest =>
    simp only [split_chars]
    split_ifs
    · simp
    · split <;> simp

theorem split_chars_intercalate (sep : Char) (cs : List Char) :
    List.intercalate [sep] (split_chars sep cs) = cs := by
  induction cs with
  | nil => rfl
  | cons c rest ih =>
    simp only [split_chars]
    split_ifs with hc
    · cases hs : split_chars sep rest with
      | nil => exact absurd hs (split_chars_ne_nil sep rest)
      | cons seg more =>
        rw [hs] at ih
        simp only [List.intercalate, List.intersperse, List.flatten_cons, List.nil_append,
          List.singleton_append] at ih ⊢
        rw [ih, hc]
    · cases hs : split_chars sep rest with
      | nil => exact absurd hs (split_chars_ne_nil sep rest)
      | cons seg more =>
        rw [hs] at ih
        cases more with
        | nil =>
          simp only [List.intercalate, List.intersperse, List.flatten_cons, List.flatten_nil,
            List.append_nil] at ih ⊢
          rw [ih]
        | cons seg2 more2 =>
          simp only [List.intercalate, List.intersperse, List.flatten_cons,
            List.cons_append] at ih ⊢
          rw [ih]

theorem split_chars_no_sep (sep : Char) (cs : List Char) :
    ∀ segment ∈ split_chars sep cs, sep ∉ segment := by
  induction cs with
  | nil => simp [split_chars]
  | cons c rest ih =>
    intro segment hmem
    simp only [split_chars] at hmem
    split_ifs at hmem with hc
    · rcases List.mem_cons.mp hmem with h | h
      · rw [h]; simp
      · exact ih segment h
    · cases hs : split_chars sep rest with
      | nil => exact absurd hs (split_chars_ne_nil sep rest)
      | cons seg more =>
        rw [hs] at hmem ih
        rcases List.mem_cons.mp hmem with h | h
        · rw [h]
          intro hin
          rcases List.mem_cons.mp hin with h2 | h2
          · exact hc h2.symm
          · exact ih seg (List.mem_cons_self _ _) h2
        · exact ih segment (List.mem_cons_of_mem _ h)

theorem reason_text_entries_texts (subkey_index reason_code : Int) (m : Nat)
    (lines : List String) (handler : AutomatonHandelStruct) :
    (reason_text_entries subkey_index reason_code m lines handler).1
      = lines.take m ++ List.replicate (m - lines.length) "" := by
  induction m generalizing lines with
  | zero => simp [reason_text_entries]
  | succ n ih =>
    cases lines with
    | nil =>
      have h := ih []
      simp only [List.take_nil, List.length_nil, Nat.sub_zero, List.nil_append] at h
      simp only [reason_text_entries, RevokeSubkey.action_handler, h, List.take_nil,
        List.length_nil, Nat.sub_zero, List.nil_append, List.replicate_succ]
    | cons l rest =>
      have h := ih rest
      simp only [reason_text_entries, RevokeSubkey.action_handler, h, List.take_succ_cons,
        List.length_cons, Nat.add_sub_add_right, List.cons_append]

theorem mk_isEmpty (segment : List Char) : (String.mk segment).isEmpty = segment.isEmpty := by
  cases segment with
  | nil => rfl
  | cons c rest =>
    have h : ¬ (String.mk (c :: rest)).isEmpty = true := by
      rw [String.isEmpty_iff]
      intro h
      have := congrArg String.data h
      simp at this
    simpa using h

theorem skip_empty_data (s : String) (sep : Char) :
    (QString_split_SkipEmptyParts s sep).map String.data
      = (split_chars sep s.data).filter (fun segment => !segment.isEmpty) := by
  simp only [QString_split_SkipEmptyParts, QString_split, List.filter_map, List.map_map]
  have hfun : ((fun part => !part.isEmpty) ∘ String.mk)
      = (fun segment : List Char => !segment.isEmpty) := by
    funext segment
    simp [mk_isEmpty]
  rw [hfun]
  have hid : (String.data ∘ String.mk) = (id : List Char → List Char) := by
    funext segment
    rfl
  rw [hid, List.map_id]

theorem skip_empty_lines (s : String) (sep : Char) :
    ∀ line ∈ QString_split_SkipEmptyParts s sep, line ≠ "" ∧ sep ∉ line.data := by
  intro line hline
  simp only [QString_split_SkipEmptyParts, QString_split, List.mem_filter, List.mem_map] at hline
  obtain ⟨⟨segment, hseg, rfl⟩, hne⟩ := hline
  refine ⟨?_, split_chars_no_sep sep s.data segment hseg⟩
  intro h
  rw [h] at hne
  exact absurd hne (by decide)

/-- C26: the characters of `reason_text` are its segments joined by newlines, and
no segment contains a newline; the queue `RevokeSubkey` builds is the sequence of
the non-empty segments, in their order; no queued line is empty or contains a
newline; and the invocations of the action at `AS_REASON_TEXT` send the queued lines
first: none of the first `n` texts, `n` the length of the queue, is the empty
string, and all later ones are. -/
theorem reason_lines_queue (reason_text : String) (subkey_index reason_code : Int)
    (handler : AutomatonHandelStruct) (m : Nat) :
    List.intercalate ['\n'] (split_chars '\n' reason_text.data) = reason_text.data ∧
    (∀ segment ∈ split_chars '\n' reason_text.data, '\n' ∉ segment) ∧
    (QString_split_SkipEmptyParts reason_text '\n').map String.data
      = (split_chars '\n' reason_text.data).filter (fun segment => !segment.isEmpty) ∧
    (∀ line ∈ QString_split_SkipEmptyParts reason_text '\n',
      line ≠ "" ∧ '\n' ∉ line.data) ∧
    (reason_text_entries subkey_index reason_code m
        (QString_split_SkipEmptyParts reason_text '\n') handler).1
      = (QString_split_SkipEmptyParts reason_text '\n').take m
        ++ List.replicate (m - (QString_split_SkipEmptyParts reason_text '\n').length) "" ∧
    (∀ k, k < (QString_split_SkipEmptyParts reason_text '\n').length →
      (reason_text_entries subkey_index reason_code m
        (QString_split_SkipEmptyParts reason_text '\n') handler).1.get? k ≠ some "") ∧
    (∀ (subkeys : Nat) (events : List (String × String)) (process_ok : Bool),
      0 ≤ subkey_index → subkey_index < (subkeys : Int) → 0 ≤ reason_code → reason_code ≤ 3 →
      (GpgKeyManager.RevokeSubkey subkeys subkey_index reason_code reason_text events
        process_ok).turns
        = (interact RevokeSubkey.next_state_handler
            (RevokeSubkey.action_handler subkey_index reason_code)
            (QString_split_SkipEmptyParts reason_text '\n') events).turns) := by
  refine ⟨split_chars_intercalate _ _, split_chars_no_sep _ _, skip_empty_data _ _,
    skip_empty_lines _ _, reason_text_entries_texts _ _ _ _ _, ?_, ?_⟩
  · intro k hk hget
    rw [reason_text_entries_texts] at hget
    simp only [List.get?_eq_getElem?] at hget
    by_cases hkm : k < m
    · have hlt : k < ((QString_split_SkipEmptyParts reason_text '\n').take m).length := by
        rw [List.length_take]
        omega
      rw [List.getElem?_append_left hlt, List.getElem?_take_of_lt hkm] at hget
      have hmem := List.getElem?_mem hget
      exact (skip_empty_lines reason_text '\n' "" hmem).1 rfl
    · have hlen : ((QString_split_SkipEmptyParts reason_text '\n').take m
          ++ List.replicate (m - (QString_split_SkipEmptyParts reason_text '\n').length)
            "").length ≤ k := by
        simp only [List.length_append, List.length_take, List.length_replicate]
        omega
      rw [List.getElem?_eq_none hlen] at hget
      exact Option.noConfusion hget
  · intro subkeys events process_ok h1 h2 h3 h4
    have hvalid : ¬ (subkey_index < 0 ∨ subkey_index ≥ (subkeys : Int)) := by omega
    have hlegal : ¬ (reason_code < 0 ∨ reason_code > 3) := by omega
    simp only [GpgKeyManager.RevokeSubkey, if_neg hvalid, if_neg hlegal]

/-- Witness of C26: a reason text with an empty line in the middle and a newline at
the end. -/
theorem reason_lines_queue_witness :
    QString_split_SkipEmptyParts "line1\n\nline2\n" '\n' = ["line1", "line2"] ∧
    (reason_text_entries 1 0 3 (QString_split_SkipEmptyParts "line1\n\nline2\n" '\n')
      { success := false }).1
      = (QString_split_SkipEmptyParts "line1\n\nline2\n" '\n').take 3
        ++ List.replicate (3 - (QString_split_SkipEmptyParts "line1\n\nline2\n" '\n').length) "" :=
  ⟨by decide, (reason_lines_queue "line1\n\nline2\n" 1 0 { success := false } 3).2.2.2.2.1⟩

/-! ### GFCompareSoftwareVersion -/

theorem compare_parts_swap (parts_a parts_b : List String) :
    compare_parts parts_b parts_a = (compare_parts parts_a parts_b).map (fun r => -r) := by
  induction parts_a generalizing parts_b with
  | nil => cases parts_b <;> simp [compare_parts]
  | cons a rest_a ih =>
    cases parts_b with
    | nil => simp [compare_parts]
    | cons b rest_b =>
      simp only [compare_parts]
      by_cases h : QString_toInt a = QString_toInt b
      · simp only [h, ne_eq, not_true_eq_false, if_false]
        exact ih rest_b
      · have h2 : ¬ QString_toInt b = QString_toInt a := fun e => h e.symm
        simp only [h, h2, ne_eq, not_false_eq_true, if_true, Option.map_some']
        split_ifs <;> first | rfl | omega

theorem compare_parts_range (parts_a parts_b : List String) (r : Int)
    (h : compare_parts parts_a parts_b = some r) : r = 1 ∨ r = -1 := by
  induction parts_a generalizing parts_b with
  | nil => cases parts_b <;> simp [compare_parts] at h
  | cons a rest_a ih =>
    cases parts_b with
    | nil => simp [compare_parts] at h
    | cons b rest_b =>
      simp only [compare_parts] at h
      split_ifs at h with h1 h2
      · left; exact (Option.some.inj h).symm
      · right; exact (Option.some.inj h).symm
      · exact ih rest_b h

theorem compare_parts_self (parts : List String) : compare_parts parts parts = none := by
  induction parts with
  | nil => rfl
  | cons a rest ih => simp [compare_parts, ih]

/-- C27: `GFCompareSoftwareVersion` is antisymmetric, returns only -1, 0 or 1, and
compares every version string equal to itself. -/
theorem compare_version_antisymmetric (a b : String) :
    GFCompareSoftwareVersion a b = - GFCompareSoftwareVersion b a ∧
    (GFCompareSoftwareVersion a b = -1 ∨ GFCompareSoftwareVersion a b = 0 ∨
      GFCompareSoftwareVersion a b = 1) ∧
    GFCompareSoftwareVersion a a = 0 := by
  refine ⟨?_, ?_, ?_⟩
  · simp only [GFCompareSoftwareVersion]
    rw [compare_parts_swap (QString_split ( remove_prefix a) '.')
      (QString_split ( remove_prefix b) '.')]
    cases compare_parts (QString_split ( remove_prefix a) '.')
        (QString_split ( remove_prefix b) '.') with
    | some r => simp
    | none =>
      simp only [Option.map_none']
      split_ifs <;> first | rfl | omega
  · simp only [GFCompareSoftwareVersion]
    cases h : compare_parts (QString_split ( remove_prefix a) '.')
        (QString_split ( remove_prefix b) '.') with
    | some r =>
      rcases compare_parts_range _ _ r h with h1 | h1
      · right; right; exact h1
      · left; exact h1
    | none =>
      simp only
      split_ifs
      · right; right; rfl
      · left; rfl
      · right; left; rfl
  · simp [GFCompareSoftwareVersion, compare_parts_self]

theorem remove_prefix_v (a : String) : remove_prefix ("v" ++ a) = a := by
  have h : ("v" ++ a).data = 'v' :: a.data := by
    rw [String.data_append]
    rfl
  simp only [ remove_prefix, h]

theorem remove_prefix_other (a : String) (h : a.data.head? ≠ some 'v') :
    remove_prefix a = a := by
  unfold remove_prefix
  split
  · next rest hdata =>
    rw [hdata] at h
    exact absurd rfl h
  · rfl

/-- C28: for all version strings `a` and `b` that do not start with 'v', putting a
'v' in front of either does not change the result of `GFCompareSoftwareVersion`. -/
theorem compare_version_ignores_v (a b : String) (ha : a.data.head? ≠ some 'v')
    (hb : b.data.head? ≠ some 'v') :
    GFCompareSoftwareVersion ("v" ++ a) b = GFCompareSoftwareVersion a b ∧
    GFCompareSoftwareVersion a ("v" ++ b) = GFCompareSoftwareVersion a b := by
  simp only [GFCompareSoftwareVersion, remove_prefix_v, remove_prefix_other a ha,
    remove_prefix_other b hb, and_self]

/-- Witness of C28: the versions 1.2.3 and 1.2.10. -/
theorem compare_version_ignores_v_witness :
    GFCompareSoftwareVersion ("v" ++ "1.2.3") "1.2.10" = GFCompareSoftwareVersion "1.2.3" "1.2.10" ∧
    GFCompareSoftwareVersion "1.2.3" ("v" ++ "1.2.10")
      = GFCompareSoftwareVersion "1.2.3" "1.2.10" :=
  compare_version_ignores_v "1.2.3" "1.2.10" (by decide) (by decide)

/-! ### BeautifyFingerprint -/

theorem beautify_append (xs ys : List Char) (count : Nat) :
    beautify_from count (xs ++ ys)
      = beautify_from count xs ++ beautify_from (count + xs.length) ys := by
  induction xs generalizing count with
  | nil => simp [beautify_from]
  | cons x rest ih =>
    have hlen : count + 1 + rest.length = count + (x :: rest).length := by
      rw [List.length_cons]; omega
    rw [List.cons_append, beautify_from, beautify_from, ih (count + 1), hlen,
      List.append_assoc]

theorem beautify_group (xs : List Char) (count : Nat) (hcount : count % 5 = 0)
    (hlen : xs.length ≤ 5) (hne : xs ≠ []) :
    beautify_from count xs = if count ≠ 0 then ' ' :: xs else xs := by
  have h1 : ¬ ((count + 1) % 5 = 0) := by omega
  have h2 : ¬ ((count + 1 + 1) % 5 = 0) := by omega
  have h3 : ¬ ((count + 1 + 1 + 1) % 5 = 0) := by omega
  have h4 : ¬ ((count + 1 + 1 + 1 + 1) % 5 = 0) := by omega
  match xs, hlen, hne with
  | [a], _, _ => by_cases hc : count = 0 <;> simp [beautify_from, hc, hcount]
  | [a, b], _, _ => by_cases hc : count = 0 <;> simp [beautify_from, hc, hcount, h1]
  | [a, b, c], _, _ => by_cases hc : count = 0 <;> simp [beautify_from, hc, hcount, h1, h2]
  | [a, b, c, d], _, _ =>
    by_cases hc : count = 0 <;> simp [beautify_from, hc, hcount, h1, h2, h3]
  | [a, b, c, d, e], _, _ =>
    by_cases hc : count = 0 <;> simp [beautify_from, hc, hcount, h1, h2, h3, h4]
  | _ :: _ :: _ :: _ :: _ :: _ :: _, hl, _ =>
    simp only [List.length_cons] at hl
    omega

theorem groups_of_five_cons (c : Char) (rest : List Char) :
    groups_of_five (c :: rest)
      = (c :: rest).take 5 :: groups_of_five ((c :: rest).drop 5) := by
  rw [groups_of_five]

theorem beautify_groups_spaced (n : Nat) :
    ∀ (cs : List Char) (count : Nat), cs.length ≤ n → count % 5 = 0 → count ≠ 0 →
      beautify_from count cs = ((groups_of_five cs).map (fun g => ' ' :: g)).flatten := by
  induction n with
  | zero =>
    intro cs count hlen _ _
    have : cs = [] := List.length_eq_zero.mp (Nat.le_zero.mp hlen)
    subst this
    simp [beautify_from, groups_of_five]
  | succ n ih =>
    intro cs count hlen hcount hne
    cases cs with
    | nil => simp [beautify_from, groups_of_five]
    | cons c rest =>
      rw [groups_of_five_cons, List.map_cons, List.flatten_cons]
      have hsplit : c :: rest = (c :: rest).take 5 ++ (c :: rest).drop 5 :=
        (List.take_append_drop 5 (c :: rest)).symm
      have htake_ne : (c :: rest).take 5 ≠ [] := by simp
      have htake_len : ((c :: rest).take 5).length ≤ 5 := by
        rw [List.length_take]; omega
      conv_lhs => rw [hsplit]
      rw [beautify_append, beautify_group _ count hcount htake_len htake_ne, if_pos hne]
      by_cases hdrop : (c :: rest).drop 5 = []
      · rw [hdrop]
        simp [beautify_from, groups_of_five]
      · have hlong : 5 < (c :: rest).length := by
          by_contra hle
          exact hdrop (List.drop_eq_nil_of_le (Nat.le_of_not_lt hle))
        have htl : ((c :: rest).take 5).length = 5 := by
          rw [List.length_take]; omega
        rw [htl]
        rw [ih ((c :: rest).drop 5) (count + 5) (by rw [List.length_drop]; omega) (by omega)
          (by omega)]

theorem intercalate_groups (g : List Char) (gs : List (List Char)) :
    List.intercalate [' '] (g :: gs) = g ++ (gs.map (fun h => ' ' :: h)).flatten := by
  induction gs generalizing g with
  | nil => simp [List.intercalate, List.intersperse]
  | cons h rest ih =>
    have := ih h
    simp only [List.intercalate, List.intersperse, List.flatten_cons, List.map_cons,
      List.singleton_append] at this ⊢
    rw [this]
    rfl

theorem beautify_eq_groups (cs : List Char) :
    beautify_from 0 cs = List.intercalate [' '] (groups_of_five cs) := by
  cases cs with
  | nil => simp [beautify_from, groups_of_five, List.intercalate, List.intersperse]
  | cons c rest =>
    rw [groups_of_five_cons, intercalate_groups]
    have hsplit : c :: rest = (c :: rest).take 5 ++ (c :: rest).drop 5 :=
      (List.take_append_drop 5 (c :: rest)).symm
    have htake_ne : (c :: rest).take 5 ≠ [] := by simp
    have htake_len : ((c :: rest).take 5).length ≤ 5 := by
      rw [List.length_take]; omega
    conv_lhs => rw [hsplit]
    rw [beautify_append, beautify_group _ 0 rfl htake_len htake_ne]
    simp only [ne_eq, not_true_eq_false, if_false, Nat.zero_add]
    by_cases hdrop : (c :: rest).drop 5 = []
    · rw [hdrop]
      simp [beautify_from, groups_of_five]
    · have hlong : 5 < (c :: rest).length := by
        by_contra hle
        exact hdrop (List.drop_eq_nil_of_le (Nat.le_of_not_lt hle))
      have htl : ((c :: rest).take 5).length = 5 := by
        rw [List.length_take]; omega
      rw [htl, beautify_groups_spaced _ ((c :: rest).drop 5) 5 (Nat.le_refl _) rfl (by decide)]

theorem beautify_filter (cs : List Char) (count : Nat) (h : ' ' ∉ cs) :
    (beautify_from count cs).filter (fun c => c != ' ') = cs := by
  induction cs generalizing count with
  | nil => rfl
  | cons x rest ih =>
    have hx : x ≠ ' ' := fun e => h (by rw [e]; exact List.mem_cons_self _ _)
    have hrest : ' ' ∉ rest := fun hin => h (List.mem_cons_of_mem _ hin)
    have hxb : (x != ' ') = true := by simpa using hx
    rw [beautify_from, List.filter_append, ih _ hrest]
    split_ifs
    · have hsp : ((' ' : Char) != ' ') = false := by decide
      rw [List.filter_cons, hsp, List.filter_cons, hxb]
      rfl
    · rw [List.filter_cons, hxb]
      rfl

theorem groups_of_five_props (n : Nat) :
    ∀ cs : List Char, cs.length ≤ n →
      (groups_of_five cs).flatten = cs ∧
      (∀ g ∈ groups_of_five cs, 1 ≤ g.length ∧ g.length ≤ 5) ∧
      (∀ g ∈ (groups_of_five cs).dropLast, g.length = 5) := by
  induction n with
  | zero =>
    intro cs hlen
    have : cs = [] := List.length_eq_zero.mp (Nat.le_zero.mp hlen)
    subst this
    simp [groups_of_five]
  | succ n ih =>
    intro cs hlen
    cases cs with
    | nil => simp [groups_of_five]
    | cons c rest =>
      obtain ⟨h1, h2, h3⟩ := ih ((c :: rest).drop 5) (by rw [List.length_drop]; simp at hlen ⊢; omega)
      rw [groups_of_five_cons]
      refine ⟨?_, ?_, ?_⟩
      · rw [List.flatten_cons, h1, List.take_append_drop]
      · intro g hg
        rcases List.mem_cons.mp hg with e | e
        · rw [e, List.length_take, List.length_cons]
          omega
        · exact h2 g e
      · intro g hg
        cases hgs : groups_of_five ((c :: rest).drop 5) with
        | nil =>
          rw [hgs] at hg
          simp at hg
        | cons g2 more =>
          rw [hgs, List.dropLast_cons₂] at hg
          rcases List.mem_cons.mp hg with e | e
          · have hdrop : (c :: rest).drop 5 ≠ [] := by
              intro hd
              rw [hd] at hgs
              simp [groups_of_five] at hgs
            have hlong : 5 < (c :: rest).length := by
              by_contra hle
              exact hdrop (List.drop_eq_nil_of_le (Nat.le_of_not_lt hle))
            rw [e, List.length_take]
            omega
          · rw [hgs] at h3
            exact h3 g e

theorem beautify_head (cs : List Char) : (beautify_from 0 cs).head? = cs.head? := by
  cases cs with
  | nil => rfl
  | cons c rest => simp [beautify_from]

theorem beautify_last (cs : List Char) (count : Nat) :
    (beautify_from count cs).getLast? = cs.getLast? := by
  induction cs using List.reverseRecOn with
  | nil => rfl
  | append_singleton xs x _ =>
    rw [beautify_append]
    simp only [beautify_from, List.append_nil]
    split_ifs
    · rw [show beautify_from count xs ++ [' ', x]
          = (beautify_from count xs ++ [' ']) ++ [x] by simp]
      simp
    · simp

/-- C29: for every fingerprint without a space, the characters of
`BeautifyFingerprint` are the groups of five of the fingerprint (all of five
characters but possibly the last, which has one to five; together they are the
fingerprint) joined by single spaces; the result neither starts nor ends with a
space; removing the spaces gives the fingerprint back; and the empty string maps
to the empty string. -/
theorem beautify_fingerprint_groups (fingerprint : String) (h : ' ' ∉ fingerprint.data) :
    (BeautifyFingerprint fingerprint).data
      = List.intercalate [' '] (groups_of_five fingerprint.data) ∧
    (groups_of_five fingerprint.data).flatten = fingerprint.data ∧
    (∀ g ∈ groups_of_five fingerprint.data, 1 ≤ g.length ∧ g.length ≤ 5) ∧
    (∀ g ∈ (groups_of_five fingerprint.data).dropLast, g.length = 5) ∧
    (BeautifyFingerprint fingerprint).data.head? ≠ some ' ' ∧
    (BeautifyFingerprint fingerprint).data.getLast? ≠ some ' ' ∧
    (BeautifyFingerprint fingerprint).data.filter (fun c => c != ' ') = fingerprint.data ∧
    BeautifyFingerprint "" = "" := by
  obtain ⟨g1, g2, g3⟩ := groups_of_five_props fingerprint.data.length fingerprint.data
    (Nat.le_refl _)
  refine ⟨beautify_eq_groups _, g1, g2, g3, ?_, ?_, beautify_filter _ 0 h, rfl⟩
  · show (beautify_from 0 fingerprint.data).head? ≠ some ' '
    rw [beautify_head]
    intro hh
    exact h (List.mem_of_mem_head? hh)
  · show (beautify_from 0 fingerprint.data).getLast? ≠ some ' '
    rw [beautify_last]
    intro hl
    exact h (List.mem_of_mem_getLast? hl)

/-- Witness of C29: a fingerprint of forty hexadecimal digits. -/
theorem beautify_fingerprint_groups_witness :
    (BeautifyFingerprint "0123456789ABCDEF0123456789ABCDEF01234567").data
      = List.intercalate [' ']
          (groups_of_five "0123456789ABCDEF0123456789ABCDEF01234567".data) ∧
    BeautifyFingerprint "0123456789ABCDEF0123456789ABCDEF01234567"
      = "01234 56789 ABCDE F0123 45678 9ABCD EF012 34567" :=
  ⟨(beautify_fingerprint_groups "0123456789ABCDEF0123456789ABCDEF01234567" (by decide)).1,
   by decide⟩

/-! ### HelpPage::localized_help -/

/-- C21 fails on the code: for the requested file `/usr/share/help/index.html`
and the language `de` the candidate is `/usr/share/help/index.de.html`, in the same
directory; but the test for its existence is made on `QUrl(langfile).toLocalFile()`,
which is empty for a text without scheme, so that, although the candidate exists,
the requested path is returned. -/
theorem localized_help_ignores_candidate :
    langfile (some "de") "en_US" "/usr/share/help/index.html"
      = "/usr/share/help/index.de.html" ∧
    QUrl_toLocalFile "/usr/share/help/index.de.html" = "" ∧
    localized_help (some "de") "en_US" QUrl_toLocalFile
      (fun name => name == "/usr/share/help/index.de.html" || name == "/usr/share/help/index.html")
      "/usr/share/help/index.html"
      = "/usr/share/help/index.html" := by
  decide

end GpgFrontend
